import Mathlib

/-!
Verification development for the agni_tf_tools rviz plugin
(src/plugin/euler_property.cpp and src/plugin/rotation_property.cpp).

The C++ code manipulates doubles; we model them as real numbers, so the
floating-point tolerance checks of the code (Eigen isApprox with
dummy_precision 1e-12) become exact real inequalities with the same
constant.  External dependencies are embedded from their sources:
  - Eigen Quaterniond multiplication, AngleAxis-to-quaternion conversion
    and Quaternion::toRotationMatrix (Eigen/src/Geometry);
  - Eigen MatrixBase::eulerAngles (Eigen/src/Geometry/EulerAngles.h),
    transcribed branch by branch including the range-normalisation shifts;
  - angles::from_degrees / angles::to_degrees from the ROS angles package;
  - the rviz Property value store for the three child FloatProperties
    (a child setValue stores the value and fires its changed signal only
    when the value actually differs).
Qt signal dispatch is synchronous and single threaded; each Q_EMIT is
modelled as an element of an event list produced by the operation.
-/

/-! ### Quaternions (Eigen::Quaterniond) -/

/-- A quaternion, four real coefficients as in Eigen::Quaterniond. -/
@[ext]
structure Quat where
  w : ℝ
  x : ℝ
  y : ℝ
  z : ℝ

/-- Hamilton product, as implemented by Eigen Quaterniond operator*. -/
def qmul (p q : Quat) : Quat :=
  ⟨p.w * q.w - p.x * q.x - p.y * q.y - p.z * q.z,
   p.w * q.x + p.x * q.w + p.y * q.z - p.z * q.y,
   p.w * q.y - p.x * q.z + p.y * q.w + p.z * q.x,
   p.w * q.z + p.x * q.y - p.y * q.x + p.z * q.w⟩

/-- Coefficient-wise negation (the antipodal quaternion). -/
def qneg (q : Quat) : Quat := ⟨-q.w, -q.x, -q.y, -q.z⟩

/-- Squared norm of the coefficient vector. -/
def qnormSq (q : Quat) : ℝ := q.w ^ 2 + q.x ^ 2 + q.y ^ 2 + q.z ^ 2

/-- The identity quaternion (Eigen Quaterniond::Identity). -/
def qone : Quat := ⟨1, 0, 0, 0⟩

/-- Eigen NumTraits double dummy_precision, the default isApprox tolerance. -/
noncomputable def dummyPrec : ℝ := 1 / 10 ^ 12

/-- Eigen Quaterniond::isApprox: the coefficient vectors a and b satisfy
norm (a - b) <= prec * min (norm a) (norm b).  Stated on squares, which is
equivalent since both sides are nonnegative. -/
noncomputable def isApproxQ (a b : Quat) : Prop :=
  qnormSq ⟨a.w - b.w, a.x - b.x, a.y - b.y, a.z - b.z⟩ ≤
    dummyPrec ^ 2 * min (qnormSq a) (qnormSq b)

theorem isApproxQ_refl (a : Quat) : isApproxQ a a := by
  simp only [isApproxQ, qnormSq]
  have h : a.w - a.w = 0 ∧ a.x - a.x = 0 ∧ a.y - a.y = 0 ∧ a.z - a.z = 0 := by
    constructor <;> [ring_nf; constructor <;> [ring_nf; constructor <;> ring_nf]]
  rw [h.1, h.2.1, h.2.2.1, h.2.2.2]
  have : (0:ℝ) ^ 2 + 0 ^ 2 + 0 ^ 2 + 0 ^ 2 = 0 := by norm_num
  rw [this]
  positivity

/-! ### 3x3 matrices -/

/-- A 3x3 real matrix with explicit entries. -/
@[ext]
structure M3 where
  m00 : ℝ
  m01 : ℝ
  m02 : ℝ
  m10 : ℝ
  m11 : ℝ
  m12 : ℝ
  m20 : ℝ
  m21 : ℝ
  m22 : ℝ

/-- Entry access by index pair (Eigen coeff(r, c)); out-of-range indices
never occur in the embedded code paths. -/
def coeff (M : M3) : Nat → Nat → ℝ
  | 0, 0 => M.m00
  | 0, 1 => M.m01
  | 0, 2 => M.m02
  | 1, 0 => M.m10
  | 1, 1 => M.m11
  | 1, 2 => M.m12
  | 2, 0 => M.m20
  | 2, 1 => M.m21
  | 2, 2 => M.m22
  | _, _ => 0

/-- Matrix product. -/
def mulM3 (A B : M3) : M3 :=
  ⟨A.m00 * B.m00 + A.m01 * B.m10 + A.m02 * B.m20,
   A.m00 * B.m01 + A.m01 * B.m11 + A.m02 * B.m21,
   A.m00 * B.m02 + A.m01 * B.m12 + A.m02 * B.m22,
   A.m10 * B.m00 + A.m11 * B.m10 + A.m12 * B.m20,
   A.m10 * B.m01 + A.m11 * B.m11 + A.m12 * B.m21,
   A.m10 * B.m02 + A.m11 * B.m12 + A.m12 * B.m22,
   A.m20 * B.m00 + A.m21 * B.m10 + A.m22 * B.m20,
   A.m20 * B.m01 + A.m21 * B.m11 + A.m22 * B.m21,
   A.m20 * B.m02 + A.m21 * B.m12 + A.m22 * B.m22⟩

/-- The identity matrix. -/
def idM3 : M3 := ⟨1, 0, 0, 0, 1, 0, 0, 0, 1⟩

/-- Eigen Quaternion::toRotationMatrix (the quaternion_.matrix() call in
EulerProperty::updateAngles); the formula assumes a unit quaternion. -/
def quatToMatrix (q : Quat) : M3 :=
  ⟨1 - 2 * (q.y ^ 2 + q.z ^ 2), 2 * (q.x * q.y - q.w * q.z), 2 * (q.x * q.z + q.w * q.y),
   2 * (q.x * q.y + q.w * q.z), 1 - 2 * (q.x ^ 2 + q.z ^ 2), 2 * (q.y * q.z - q.w * q.x),
   2 * (q.x * q.z - q.w * q.y), 2 * (q.y * q.z + q.w * q.x), 1 - 2 * (q.x ^ 2 + q.y ^ 2)⟩

/-- Homogeneous form of the rotation matrix of a quaternion: the matrix of
v. q * v * conj q on pure quaternions without any normalisation.  For a
unit quaternion it coincides with quatToMatrix. -/
def hmat (q : Quat) : M3 :=
  ⟨q.w ^ 2 + q.x ^ 2 - q.y ^ 2 - q.z ^ 2, 2 * (q.x * q.y - q.w * q.z), 2 * (q.x * q.z + q.w * q.y),
   2 * (q.x * q.y + q.w * q.z), q.w ^ 2 - q.x ^ 2 + q.y ^ 2 - q.z ^ 2, 2 * (q.y * q.z - q.w * q.x),
   2 * (q.x * q.z - q.w * q.y), 2 * (q.y * q.z + q.w * q.x), q.w ^ 2 - q.x ^ 2 - q.y ^ 2 + q.z ^ 2⟩

/-- Eigen AngleAxisd(angle, Vector3d::Unit(axis)) converted to a quaternion:
scalar part cos (angle / 2), vector part sin (angle / 2) times the basis
axis.  This is how the products in EulerProperty::setEulerAngles are built. -/
noncomputable def axisAngleQuat (axis : Nat) (angle : ℝ) : Quat :=
  match axis with
  | 0 => ⟨Real.cos (angle / 2), Real.sin (angle / 2), 0, 0⟩
  | 1 => ⟨Real.cos (angle / 2), 0, Real.sin (angle / 2), 0⟩
  | _ => ⟨Real.cos (angle / 2), 0, 0, Real.sin (angle / 2)⟩

/-- Specification-side definition: the right-handed rotation matrix by a
given angle about coordinate basis axis 0, 1 or 2 (the matrix R(axis, angle)
of the specification text). -/
noncomputable def basisRotMat (axis : Nat) (t : ℝ) : M3 :=
  match axis with
  | 0 =>
    ⟨1, 0, 0,
     0, Real.cos t, -Real.sin t,
     0, Real.sin t, Real.cos t⟩
  | 1 =>
    ⟨Real.cos t, 0, Real.sin t,
     0, 1, 0,
     -Real.sin t, 0, Real.cos t⟩
  | _ =>
    ⟨Real.cos t, -Real.sin t, 0,
     Real.sin t, Real.cos t, 0,
     0, 0, 1⟩

/-! ### Two-argument arctangent

Model of the C library atan2 used by Eigen's eulerAngles.  (Signed zeros do
not exist on the reals; atan2 0 0 = 0 matches atan2(+0, +0).) -/

noncomputable def atan2 (y x : ℝ) : ℝ :=
  if 0 < x then Real.arctan (y / x)
  else if x < 0 then
    (if 0 ≤ y then Real.arctan (y / x) + Real.pi else Real.arctan (y / x) - Real.pi)
  else
    (if 0 < y then Real.pi / 2 else if y < 0 then -(Real.pi / 2) else 0)

/-! ### The axis specification parser (EulerProperty::setEulerAxes, pure part)

Lines 126-158 of euler_property.cpp: the "rpy" alias, the frame prefix,
the length check and the per-character scan.  Characters are compared via
their Latin-1 codes exactly as the C code does with pc[i] - 'x'. -/

/-- The error cases of EulerProperty::invalid_axes: the default message,
the per-character message (which the code builds from *pc, the first axis
character), and the consecutive-axes message. -/
inductive AxErr where
  | generic : AxErr
  | invalidChar : Char → AxErr
  | consecutive : AxErr
  deriving DecidableEq, Repr

/-- The alias step: "rpy" is replaced by "sxyz" before parsing continues. -/
def aliasAxes (spec : List Char) : List Char :=
  if spec = ['r', 'p', 'y'] then ['s', 'x', 'y', 'z'] else spec

/-- The frame flag: a leading 's' means fixed, 'r' means rotating, anything
else defaults to rotating with no character consumed. -/
def frameOf (spec : List Char) : Bool :=
  match aliasAxes spec with
  | 's' :: _ => true
  | _ => false

/-- The remainder after consuming the frame prefix character (if any). -/
def axesRemainder (spec : List Char) : List Char :=
  match aliasAxes spec with
  | 's' :: rest => rest
  | 'r' :: rest => rest
  | other => other

/-- The axis index of a character, as the C expression pc[i] - 'x'
(an int, negative for characters before 'x'). -/
def axIdxI (c : Char) : Int := (c.toNat : Int) - 120

/-- The scan over the three axis characters.  Note: on an out-of-range
character the C code throws invalid_axes(*pc) where pc points at the FIRST
axis character, so the reported character is always c0. -/
def parse3 (fixed : Bool) : List Char → Except AxErr (Bool × (Nat × Nat × Nat))
  | [c0, c1, c2] =>
    let i0 := axIdxI c0
    if i0 < 0 ∨ 2 < i0 then .error (.invalidChar c0)
    else
      let i1 := axIdxI c1
      if i1 < 0 ∨ 2 < i1 then .error (.invalidChar c0)
      else if i1 = i0 then .error .consecutive
      else
        let i2 := axIdxI c2
        if i2 < 0 ∨ 2 < i2 then .error (.invalidChar c0)
        else if i2 = i1 then .error .consecutive
        else .ok (fixed, (i0.toNat, i1.toNat, i2.toNat))
  | _ => .error .generic

/-- The pure parsing part of EulerProperty::setEulerAxes: alias expansion,
frame prefix, the emptiness/length guard (which tests the ORIGINAL spec for
emptiness but the remainder for length 3), then the character scan. -/
def parseAxes (spec : List Char) : Except AxErr (Bool × (Nat × Nat × Nat)) :=
  if spec = [] ∨ (axesRemainder spec).length ≠ 3 then .error .generic
  else parse3 (frameOf spec) (axesRemainder spec)

example : parseAxes "sxyz".data = .ok (true, (0, 1, 2)) := by rfl
example : parseAxes "ryxz".data = .ok (false, (1, 0, 2)) := by rfl
example : parseAxes "rpy".data = .ok (true, (0, 1, 2)) := by rfl
example : parseAxes "xyq".data = .error (.invalidChar 'x') := by rfl
example : parseAxes "xxz".data = .error .consecutive := by rfl
example : parseAxes "".data = .error .generic := by rfl
example : parseAxes "xy".data = .error .generic := by rfl

/-! ### atan2 facts -/

theorem sqrt_sum_sq_pos {x y : ℝ} (h : x ≠ 0 ∨ y ≠ 0) :
    0 < Real.sqrt (x ^ 2 + y ^ 2) := by
  apply Real.sqrt_pos.mpr
  rcases h with h | h
  · have : 0 < x ^ 2 := by positivity
    nlinarith [sq_nonneg y]
  · have : 0 < y ^ 2 := by positivity
    nlinarith [sq_nonneg x]

theorem sqrt_one_add_div_sq {x y : ℝ} (hx : x ≠ 0) :
    Real.sqrt (1 + (y / x) ^ 2) = Real.sqrt (x ^ 2 + y ^ 2) / |x| := by
  have h1 : 1 + (y / x) ^ 2 = (x ^ 2 + y ^ 2) / x ^ 2 := by
    field_simp
  rw [h1, Real.sqrt_div (by positivity) _, Real.sqrt_sq_eq_abs]

theorem cos_atan2 (y x : ℝ) (h : x ≠ 0 ∨ y ≠ 0) :
    Real.cos (atan2 y x) = x / Real.sqrt (x ^ 2 + y ^ 2) := by
  have hs := sqrt_sum_sq_pos h
  unfold atan2
  rcases lt_trichotomy x 0 with hx | hx | hx
  · have hx' : x ≠ 0 := ne_of_lt hx
    have habs : |x| = -x := abs_of_neg hx
    rw [if_neg (by linarith), if_pos hx]
    have hkey : Real.cos (Real.arctan (y / x)) = -(x / Real.sqrt (x ^ 2 + y ^ 2)) := by
      rw [Real.cos_arctan, sqrt_one_add_div_sq hx', habs]
      rw [div_div_eq_mul_div, one_mul, neg_div]
    by_cases hy : 0 ≤ y
    · rw [if_pos hy, Real.cos_add_pi, hkey]
      ring
    · rw [if_neg hy, sub_eq_add_neg, Real.cos_add, Real.cos_neg, Real.sin_neg,
        Real.cos_pi, Real.sin_pi, hkey]
      ring
  · subst hx
    rw [if_neg (by norm_num), if_neg (by norm_num)]
    rcases lt_trichotomy y 0 with hy | hy | hy
    · rw [if_neg (by linarith), if_pos hy, Real.cos_neg, Real.cos_pi_div_two, zero_div]
    · subst hy
      exact absurd rfl (by tauto)
    · rw [if_pos hy, Real.cos_pi_div_two, zero_div]
  · have hx' : x ≠ 0 := ne_of_gt hx
    have habs : |x| = x := abs_of_pos hx
    rw [if_pos hx, Real.cos_arctan, sqrt_one_add_div_sq hx', habs]
    rw [div_div_eq_mul_div, one_mul]

theorem sin_atan2 (y x : ℝ) (h : x ≠ 0 ∨ y ≠ 0) :
    Real.sin (atan2 y x) = y / Real.sqrt (x ^ 2 + y ^ 2) := by
  have hs := sqrt_sum_sq_pos h
  unfold atan2
  rcases lt_trichotomy x 0 with hx | hx | hx
  · have hx' : x ≠ 0 := ne_of_lt hx
    have habs : |x| = -x := abs_of_neg hx
    rw [if_neg (by linarith), if_pos hx]
    have hkey : Real.sin (Real.arctan (y / x)) = -(y / Real.sqrt (x ^ 2 + y ^ 2)) := by
      rw [Real.sin_arctan, sqrt_one_add_div_sq hx', habs]
      rw [div_div_eq_mul_div]
      field_simp [hx', ne_of_gt hs]
      ring
    by_cases hy : 0 ≤ y
    · rw [if_pos hy, Real.sin_add_pi, hkey, neg_neg]
    · rw [if_neg hy, sub_eq_add_neg, Real.sin_add, Real.cos_neg, Real.sin_neg,
        Real.cos_pi, Real.sin_pi, hkey]
      ring
  · subst hx
    rw [if_neg (by norm_num), if_neg (by norm_num)]
    rcases lt_trichotomy y 0 with hy | hy | hy
    · have : Real.sqrt (0 ^ 2 + y ^ 2) = -y := by
        rw [← neg_sq y]
        rw [zero_pow (by norm_num), zero_add, Real.sqrt_sq (by linarith)]
      rw [if_neg (by linarith), if_pos hy, Real.sin_neg, Real.sin_pi_div_two, this]
      rw [div_neg, div_self (ne_of_lt hy)]
    · subst hy
      exact absurd rfl (by tauto)
    · have : Real.sqrt (0 ^ 2 + y ^ 2) = y := by
        rw [zero_pow (by norm_num), zero_add, Real.sqrt_sq (by linarith)]
      rw [if_pos hy, Real.sin_pi_div_two, this, div_self (by linarith)]
  · have hx' : x ≠ 0 := ne_of_gt hx
    have habs : |x| = x := abs_of_pos hx
    rw [if_pos hx, Real.sin_arctan, sqrt_one_add_div_sq hx', habs]
    rw [div_div_eq_mul_div]
    field_simp [hx', ne_of_gt hs]

theorem atan2_zero_zero : atan2 0 0 = 0 := by
  unfold atan2
  norm_num

theorem atan2_zero_of_pos {x : ℝ} (hx : 0 < x) : atan2 0 x = 0 := by
  unfold atan2
  rw [if_pos hx, zero_div, Real.arctan_zero]

theorem atan2_zero_of_neg {x : ℝ} (hx : x < 0) : atan2 0 x = Real.pi := by
  unfold atan2
  rw [if_neg (by linarith), if_pos hx, if_pos le_rfl, zero_div, Real.arctan_zero, zero_add]

theorem atan2_pos_zero {y : ℝ} (hy : 0 < y) : atan2 y 0 = Real.pi / 2 := by
  unfold atan2
  rw [if_neg (by norm_num), if_neg (by norm_num), if_pos hy]

theorem atan2_neg_zero {y : ℝ} (hy : y < 0) : atan2 y 0 = -(Real.pi / 2) := by
  unfold atan2
  rw [if_neg (by norm_num), if_neg (by norm_num), if_neg (by linarith), if_pos hy]

/-! ### The rotation-matrix constraint system -/

/-- The orthonormality and cross-product relations satisfied by every
rotation matrix: unit rows and columns, orthogonal rows and columns, and
each row (column) being the cross product of the other two in cyclic
order.  These are exactly the algebraic facts the Euler-angle
reconstruction proof consumes. -/
structure IsRot (M : M3) : Prop where
  rn0 : M.m00 ^ 2 + M.m01 ^ 2 + M.m02 ^ 2 = 1
  rn1 : M.m10 ^ 2 + M.m11 ^ 2 + M.m12 ^ 2 = 1
  rn2 : M.m20 ^ 2 + M.m21 ^ 2 + M.m22 ^ 2 = 1
  ro01 : M.m00 * M.m10 + M.m01 * M.m11 + M.m02 * M.m12 = 0
  ro02 : M.m00 * M.m20 + M.m01 * M.m21 + M.m02 * M.m22 = 0
  ro12 : M.m10 * M.m20 + M.m11 * M.m21 + M.m12 * M.m22 = 0
  cn0 : M.m00 ^ 2 + M.m10 ^ 2 + M.m20 ^ 2 = 1
  cn1 : M.m01 ^ 2 + M.m11 ^ 2 + M.m21 ^ 2 = 1
  cn2 : M.m02 ^ 2 + M.m12 ^ 2 + M.m22 ^ 2 = 1
  co01 : M.m00 * M.m01 + M.m10 * M.m11 + M.m20 * M.m21 = 0
  co02 : M.m00 * M.m02 + M.m10 * M.m12 + M.m20 * M.m22 = 0
  co12 : M.m01 * M.m02 + M.m11 * M.m12 + M.m21 * M.m22 = 0
  rc01a : M.m01 * M.m12 - M.m02 * M.m11 = M.m20
  rc01b : M.m02 * M.m10 - M.m00 * M.m12 = M.m21
  rc01c : M.m00 * M.m11 - M.m01 * M.m10 = M.m22
  rc12a : M.m11 * M.m22 - M.m12 * M.m21 = M.m00
  rc12b : M.m12 * M.m20 - M.m10 * M.m22 = M.m01
  rc12c : M.m10 * M.m21 - M.m11 * M.m20 = M.m02
  rc20a : M.m21 * M.m02 - M.m22 * M.m01 = M.m10
  rc20b : M.m22 * M.m00 - M.m20 * M.m02 = M.m11
  rc20c : M.m20 * M.m01 - M.m21 * M.m00 = M.m12
  cc01a : M.m10 * M.m21 - M.m20 * M.m11 = M.m02
  cc01b : M.m20 * M.m01 - M.m00 * M.m21 = M.m12
  cc01c : M.m00 * M.m11 - M.m10 * M.m01 = M.m22
  cc12a : M.m11 * M.m22 - M.m21 * M.m12 = M.m00
  cc12b : M.m21 * M.m02 - M.m01 * M.m22 = M.m10
  cc12c : M.m01 * M.m12 - M.m11 * M.m02 = M.m20
  cc20a : M.m12 * M.m20 - M.m22 * M.m10 = M.m01
  cc20b : M.m22 * M.m00 - M.m02 * M.m20 = M.m11
  cc20c : M.m02 * M.m10 - M.m12 * M.m00 = M.m21

theorem isRot_hmat (q : Quat) (hq : qnormSq q = 1) : IsRot (hmat q) := by
  have h : q.w ^ 2 + q.x ^ 2 + q.y ^ 2 + q.z ^ 2 = 1 := hq
  constructor <;> simp only [hmat]
  · linear_combination (q.w ^ 2 + q.x ^ 2 + q.y ^ 2 + q.z ^ 2 + 1) * h
  · linear_combination (q.w ^ 2 + q.x ^ 2 + q.y ^ 2 + q.z ^ 2 + 1) * h
  · linear_combination (q.w ^ 2 + q.x ^ 2 + q.y ^ 2 + q.z ^ 2 + 1) * h
  · ring
  · ring
  · ring
  · linear_combination (q.w ^ 2 + q.x ^ 2 + q.y ^ 2 + q.z ^ 2 + 1) * h
  · linear_combination (q.w ^ 2 + q.x ^ 2 + q.y ^ 2 + q.z ^ 2 + 1) * h
  · linear_combination (q.w ^ 2 + q.x ^ 2 + q.y ^ 2 + q.z ^ 2 + 1) * h
  · ring
  · ring
  · ring
  · linear_combination (2 * (q.x * q.z - q.w * q.y)) * h
  · linear_combination (2 * (q.y * q.z + q.w * q.x)) * h
  · linear_combination (q.w ^ 2 - q.x ^ 2 - q.y ^ 2 + q.z ^ 2) * h
  · linear_combination (q.w ^ 2 + q.x ^ 2 - q.y ^ 2 - q.z ^ 2) * h
  · linear_combination (2 * (q.x * q.y - q.w * q.z)) * h
  · linear_combination (2 * (q.x * q.z + q.w * q.y)) * h
  · linear_combination (2 * (q.x * q.y + q.w * q.z)) * h
  · linear_combination (q.w ^ 2 - q.x ^ 2 + q.y ^ 2 - q.z ^ 2) * h
  · linear_combination (2 * (q.y * q.z - q.w * q.x)) * h
  · linear_combination (2 * (q.x * q.z + q.w * q.y)) * h
  · linear_combination (2 * (q.y * q.z - q.w * q.x)) * h
  · linear_combination (q.w ^ 2 - q.x ^ 2 - q.y ^ 2 + q.z ^ 2) * h
  · linear_combination (q.w ^ 2 + q.x ^ 2 - q.y ^ 2 - q.z ^ 2) * h
  · linear_combination (2 * (q.x * q.y + q.w * q.z)) * h
  · linear_combination (2 * (q.x * q.z - q.w * q.y)) * h
  · linear_combination (2 * (q.x * q.y - q.w * q.z)) * h
  · linear_combination (q.w ^ 2 - q.x ^ 2 + q.y ^ 2 - q.z ^ 2) * h
  · linear_combination (2 * (q.y * q.z + q.w * q.x)) * h

theorem quatToMatrix_eq_hmat (q : Quat) (hq : qnormSq q = 1) :
    quatToMatrix q = hmat q := by
  have h : q.w ^ 2 + q.x ^ 2 + q.y ^ 2 + q.z ^ 2 = 1 := hq
  ext <;> simp only [quatToMatrix, hmat]
  all_goals first
  | rfl
  | linear_combination -h

theorem isRot_quatToMatrix (q : Quat) (hq : qnormSq q = 1) :
    IsRot (quatToMatrix q) := by
  rw [quatToMatrix_eq_hmat q hq]
  exact isRot_hmat q hq

/-- Simultaneous cyclic relabeling of rows and columns by the cycle
0 -> 1 -> 2 -> 0; used to transport the Euler reconstruction lemmas
between the three axis triples of each parity class. -/
def cycleM (M : M3) : M3 :=
  ⟨M.m11, M.m12, M.m10, M.m21, M.m22, M.m20, M.m01, M.m02, M.m00⟩

theorem isRot_cycleM {M : M3} (h : IsRot M) : IsRot (cycleM M) := by
  constructor <;> simp only [cycleM]
  · linear_combination h.rn1
  · linear_combination h.rn2
  · linear_combination h.rn0
  · linear_combination h.ro12
  · linear_combination h.ro01
  · linear_combination h.ro02
  · linear_combination h.cn1
  · linear_combination h.cn2
  · linear_combination h.cn0
  · linear_combination h.co12
  · linear_combination h.co01
  · linear_combination h.co02
  · linear_combination h.rc12b
  · linear_combination h.rc12c
  · linear_combination h.rc12a
  · linear_combination h.rc20b
  · linear_combination h.rc20c
  · linear_combination h.rc20a
  · linear_combination h.rc01b
  · linear_combination h.rc01c
  · linear_combination h.rc01a
  · linear_combination h.cc12b
  · linear_combination h.cc12c
  · linear_combination h.cc12a
  · linear_combination h.cc20b
  · linear_combination h.cc20c
  · linear_combination h.cc20a
  · linear_combination h.cc01b
  · linear_combination h.cc01c
  · linear_combination h.cc01a

/-! ### Algebra of the quaternion-to-matrix map -/

theorem qnormSq_qmul (p q : Quat) : qnormSq (qmul p q) = qnormSq p * qnormSq q := by
  simp only [qnormSq, qmul]
  ring

theorem hmat_qmul (p q : Quat) : hmat (qmul p q) = mulM3 (hmat p) (hmat q) := by
  ext <;> simp only [hmat, qmul, mulM3] <;> ring

theorem quatToMatrix_qmul (p q : Quat) (hp : qnormSq p = 1) (hq : qnormSq q = 1) :
    quatToMatrix (qmul p q) = mulM3 (quatToMatrix p) (quatToMatrix q) := by
  have hpq : qnormSq (qmul p q) = 1 := by rw [qnormSq_qmul, hp, hq, one_mul]
  rw [quatToMatrix_eq_hmat _ hpq, quatToMatrix_eq_hmat p hp, quatToMatrix_eq_hmat q hq,
    hmat_qmul]

theorem quatToMatrix_qneg (q : Quat) : quatToMatrix (qneg q) = quatToMatrix q := by
  ext <;> simp only [quatToMatrix, qneg] <;> ring

theorem qnormSq_qneg (q : Quat) : qnormSq (qneg q) = qnormSq q := by
  simp only [qnormSq, qneg]
  ring

theorem qnormSq_axisAngleQuat (a : Nat) (ha : a < 3) (t : ℝ) :
    qnormSq (axisAngleQuat a t) = 1 := by
  have h3 := Real.sin_sq_add_cos_sq (t / 2)
  interval_cases a <;> simp [qnormSq, axisAngleQuat] <;> linarith

theorem quatToMatrix_axisAngleQuat (a : Nat) (ha : a < 3) (t : ℝ) :
    quatToMatrix (axisAngleQuat a t) = basisRotMat a t := by
  have h1 : Real.cos t = 2 * Real.cos (t / 2) ^ 2 - 1 := by
    have := Real.cos_two_mul (t / 2)
    rw [show 2 * (t / 2) = t by ring] at this
    exact this
  have h2 : Real.sin t = 2 * Real.sin (t / 2) * Real.cos (t / 2) := by
    have := Real.sin_two_mul (t / 2)
    rw [show 2 * (t / 2) = t by ring] at this
    exact this
  have h3 := Real.sin_sq_add_cos_sq (t / 2)
  interval_cases a <;> ext <;>
    simp only [axisAngleQuat, basisRotMat, quatToMatrix, reduceIte]
  all_goals first
  | ring1
  | linear_combination -h2
  | linear_combination h2
  | linear_combination -h1 - 2 * h3
  | linear_combination h1 + 2 * h3
  | linear_combination -h1
  | linear_combination h1

/-- A component-sign transfer: four reals whose squares and pairwise
products agree with those of a unit 4-vector agree with that vector up to
one global sign. -/
theorem sign_lift (a b c d e f g k : ℝ)
    (hn : e ^ 2 + f ^ 2 + g ^ 2 + k ^ 2 = 1)
    (haa : a ^ 2 = e ^ 2) (hbb : b ^ 2 = f ^ 2) (hcc : c ^ 2 = g ^ 2)
    (hdd : d ^ 2 = k ^ 2)
    (hab : a * b = e * f) (hac : a * c = e * g) (had : a * d = e * k)
    (hbc : b * c = f * g) (hbd : b * d = f * k) (hcd : c * d = g * k) :
    (a = e ∧ b = f ∧ c = g ∧ d = k) ∨ (a = -e ∧ b = -f ∧ c = -g ∧ d = -k) := by
  have sq_cases : ∀ u v : ℝ, u ^ 2 = v ^ 2 → u = v ∨ u = -v := by
    intro u v huv
    have hfac : (u - v) * (u + v) = 0 := by linear_combination huv
    rcases mul_eq_zero.mp hfac with h' | h'
    · exact Or.inl (by linarith)
    · exact Or.inr (by linarith)
  by_cases he : e = 0
  · by_cases hf : f = 0
    · by_cases hg : g = 0
      · have hk : k ≠ 0 := by
          intro hk0
          rw [he, hf, hg, hk0] at hn
          norm_num at hn
        have ha0 : a = 0 := by
          have : a ^ 2 = 0 := by rw [haa, he]; ring
          exact pow_eq_zero_iff (by norm_num) |>.mp this
        have hb0 : b = 0 := by
          have : b ^ 2 = 0 := by rw [hbb, hf]; ring
          exact pow_eq_zero_iff (by norm_num) |>.mp this
        have hc0 : c = 0 := by
          have : c ^ 2 = 0 := by rw [hcc, hg]; ring
          exact pow_eq_zero_iff (by norm_num) |>.mp this
        rcases sq_cases d k hdd with h' | h'
        · exact Or.inl ⟨by rw [ha0, he], by rw [hb0, hf], by rw [hc0, hg], h'⟩
        · exact Or.inr ⟨by rw [ha0, he]; ring, by rw [hb0, hf]; ring,
            by rw [hc0, hg]; ring, h'⟩
      · have ha0 : a = 0 := by
          have : a ^ 2 = 0 := by rw [haa, he]; ring
          exact pow_eq_zero_iff (by norm_num) |>.mp this
        have hb0 : b = 0 := by
          have : b ^ 2 = 0 := by rw [hbb, hf]; ring
          exact pow_eq_zero_iff (by norm_num) |>.mp this
        rcases sq_cases c g hcc with h' | h'
        · refine Or.inl ⟨by rw [ha0, he], by rw [hb0, hf], h', ?_⟩
          have := hcd
          rw [h'] at this
          exact mul_left_cancel₀ hg this
        · refine Or.inr ⟨by rw [ha0, he]; ring, by rw [hb0, hf]; ring, h', ?_⟩
          have : (-g) * d = g * k := by rw [← h']; exact hcd
          have h2 : g * (-d) = g * k := by linarith [this]
          have := mul_left_cancel₀ hg h2
          linarith
    · have ha0 : a = 0 := by
        have : a ^ 2 = 0 := by rw [haa, he]; ring
        exact pow_eq_zero_iff (by norm_num) |>.mp this
      rcases sq_cases b f hbb with h' | h'
      · refine Or.inl ⟨by rw [ha0, he], h', ?_, ?_⟩
        · have := hbc
          rw [h'] at this
          exact mul_left_cancel₀ hf this
        · have := hbd
          rw [h'] at this
          exact mul_left_cancel₀ hf this
      · refine Or.inr ⟨by rw [ha0, he]; ring, h', ?_, ?_⟩
        · have h2 : f * (-c) = f * g := by
            have := hbc
            rw [h'] at this
            linarith [this]
          have := mul_left_cancel₀ hf h2
          linarith
        · have h2 : f * (-d) = f * k := by
            have := hbd
            rw [h'] at this
            linarith [this]
          have := mul_left_cancel₀ hf h2
          linarith
  · rcases sq_cases a e haa with h' | h'
    · refine Or.inl ⟨h', ?_, ?_, ?_⟩
      · have := hab
        rw [h'] at this
        exact mul_left_cancel₀ he this
      · have := hac
        rw [h'] at this
        exact mul_left_cancel₀ he this
      · have := had
        rw [h'] at this
        exact mul_left_cancel₀ he this
    · refine Or.inr ⟨h', ?_, ?_, ?_⟩
      · have h2 : e * (-b) = e * f := by
          have := hab
          rw [h'] at this
          linarith [this]
        have := mul_left_cancel₀ he h2
        linarith
      · have h2 : e * (-c) = e * g := by
          have := hac
          rw [h'] at this
          linarith [this]
        have := mul_left_cancel₀ he h2
        linarith
      · have h2 : e * (-d) = e * k := by
          have := had
          rw [h'] at this
          linarith [this]
        have := mul_left_cancel₀ he h2
        linarith

/-- Two unit quaternions with the same rotation matrix are equal or
antipodal. -/
theorem quat_eq_or_qneg_of_matrix_eq (p q : Quat) (hp : qnormSq p = 1)
    (hq : qnormSq q = 1) (hm : quatToMatrix p = quatToMatrix q) :
    p = q ∨ p = qneg q := by
  have hp' : p.w ^ 2 + p.x ^ 2 + p.y ^ 2 + p.z ^ 2 = 1 := hp
  have hq' : q.w ^ 2 + q.x ^ 2 + q.y ^ 2 + q.z ^ 2 = 1 := hq
  have e00 := congrArg M3.m00 hm
  have e01 := congrArg M3.m01 hm
  have e02 := congrArg M3.m02 hm
  have e10 := congrArg M3.m10 hm
  have e11 := congrArg M3.m11 hm
  have e12 := congrArg M3.m12 hm
  have e20 := congrArg M3.m20 hm
  have e21 := congrArg M3.m21 hm
  have e22 := congrArg M3.m22 hm
  simp only [quatToMatrix] at e00 e01 e02 e10 e11 e12 e20 e21 e22
  have hww : p.w ^ 2 = q.w ^ 2 := by
    linear_combination (1 / 4 : ℝ) * e00 + (1 / 4 : ℝ) * e11 + (1 / 4 : ℝ) * e22 + hp' - hq'
  have hxx : p.x ^ 2 = q.x ^ 2 := by
    linear_combination (1 / 4 : ℝ) * e00 - (1 / 4 : ℝ) * e11 - (1 / 4 : ℝ) * e22
  have hyy : p.y ^ 2 = q.y ^ 2 := by
    linear_combination (-(1 / 4) : ℝ) * e00 + (1 / 4 : ℝ) * e11 - (1 / 4 : ℝ) * e22
  have hzz : p.z ^ 2 = q.z ^ 2 := by
    linear_combination (-(1 / 4) : ℝ) * e00 - (1 / 4 : ℝ) * e11 + (1 / 4 : ℝ) * e22
  have hwx : p.w * p.x = q.w * q.x := by
    linear_combination (1 / 4 : ℝ) * e21 - (1 / 4 : ℝ) * e12
  have hwy : p.w * p.y = q.w * q.y := by
    linear_combination (1 / 4 : ℝ) * e02 - (1 / 4 : ℝ) * e20
  have hwz : p.w * p.z = q.w * q.z := by
    linear_combination (1 / 4 : ℝ) * e10 - (1 / 4 : ℝ) * e01
  have hxy : p.x * p.y = q.x * q.y := by
    linear_combination (1 / 4 : ℝ) * e10 + (1 / 4 : ℝ) * e01
  have hxz : p.x * p.z = q.x * q.z := by
    linear_combination (1 / 4 : ℝ) * e02 + (1 / 4 : ℝ) * e20
  have hyz : p.y * p.z = q.y * q.z := by
    linear_combination (1 / 4 : ℝ) * e21 + (1 / 4 : ℝ) * e12
  rcases sign_lift p.w p.x p.y p.z q.w q.x q.y q.z hq' hww hxx hyy hzz hwx hwy hwz
    hxy hxz hyz with ⟨h1, h2, h3, h4⟩ | ⟨h1, h2, h3, h4⟩
  · exact Or.inl (by ext <;> assumption)
  · refine Or.inr ?_
    ext <;> simp only [qneg] <;> assumption

/-! ### Eigen MatrixBase::eulerAngles

Transcription of Eigen/src/Geometry/EulerAngles.h (the routine invoked by
EulerProperty::updateAngles through quaternion_.matrix().eulerAngles(...)).
The nine matrix entries are passed already permuted: argument pab denotes
coeff(a, b) for the index triple (i, j, k) computed by the routine. -/

open Classical in
/-- The Tait-Bryan branch (a0 different from a2) of Eigen eulerAngles. -/
noncomputable def eulerCoreTB (odd : Bool) (pii pij pik pji pjj pjk pki pkj pkk : ℝ) :
    ℝ × ℝ × ℝ :=
  let r0 := atan2 pjk pkk
  let c2 := Real.sqrt (pii ^ 2 + pij ^ 2)
  let doShift : Prop := if odd then r0 < 0 else 0 < r0
  let r0s := if doShift then (if 0 < r0 then r0 - Real.pi else r0 + Real.pi) else r0
  let r1 := if doShift then atan2 (-pik) (-c2) else atan2 (-pik) c2
  let s1 := Real.sin r0s
  let c1 := Real.cos r0s
  let r2 := atan2 (s1 * pki - c1 * pji) (c1 * pjj - s1 * pkj)
  if odd then (r0s, r1, r2) else (-r0s, -r1, -r2)

open Classical in
/-- The proper-Euler branch (a0 equal to a2) of Eigen eulerAngles. -/
noncomputable def eulerCoreProper (odd : Bool)
    (pii pij pik pji pjj pjk pki pkj pkk : ℝ) : ℝ × ℝ × ℝ :=
  let r0 := atan2 pji pki
  let doShift : Prop := if odd then r0 < 0 else 0 < r0
  let r0s := if doShift then (if 0 < r0 then r0 - Real.pi else r0 + Real.pi) else r0
  let s2 := Real.sqrt (pji ^ 2 + pki ^ 2)
  let r1 := if doShift then -(atan2 s2 pii) else atan2 s2 pii
  let s1 := Real.sin r0s
  let c1 := Real.cos r0s
  let r2 := atan2 (c1 * pjk - s1 * pkk) (c1 * pjj - s1 * pkj)
  if odd then (r0s, r1, r2) else (-r0s, -r1, -r2)

/-- Eigen MatrixBase::eulerAngles(a0, a1, a2). -/
noncomputable def eulerAnglesM (M : M3) (a0 a1 a2 : Nat) : ℝ × ℝ × ℝ :=
  let odd : Bool := if (a0 + 1) % 3 = a1 then false else true
  let i := a0
  let j := (a0 + 1 + (if odd then 1 else 0)) % 3
  let k := (a0 + 2 - (if odd then 1 else 0)) % 3
  if a0 = a2 then
    eulerCoreProper odd (coeff M i i) (coeff M i j) (coeff M i k)
      (coeff M j i) (coeff M j j) (coeff M j k)
      (coeff M k i) (coeff M k j) (coeff M k k)
  else
    eulerCoreTB odd (coeff M i i) (coeff M i j) (coeff M i k)
      (coeff M j i) (coeff M j j) (coeff M j k)
      (coeff M k i) (coeff M k j) (coeff M k k)

/-! ### Entry systems for the four recomposition shapes

Each predicate lists the nine entries of the corresponding product of
basis rotations (R(a0, t0) * R(a1, t1) * R(a2, t2)) for the canonical
representative of one parity class. -/

/-- Entries of Rx(t0) * Ry(t1) * Rz(t2). -/
def xyzEntries (t0 t1 t2 : ℝ) (P : M3) : Prop :=
  Real.cos t1 * Real.cos t2 = P.m00 ∧
  -(Real.cos t1 * Real.sin t2) = P.m01 ∧
  Real.sin t1 = P.m02 ∧
  Real.cos t0 * Real.sin t2 + Real.sin t0 * Real.sin t1 * Real.cos t2 = P.m10 ∧
  Real.cos t0 * Real.cos t2 - Real.sin t0 * Real.sin t1 * Real.sin t2 = P.m11 ∧
  -(Real.sin t0 * Real.cos t1) = P.m12 ∧
  Real.sin t0 * Real.sin t2 - Real.cos t0 * Real.sin t1 * Real.cos t2 = P.m20 ∧
  Real.sin t0 * Real.cos t2 + Real.cos t0 * Real.sin t1 * Real.sin t2 = P.m21 ∧
  Real.cos t0 * Real.cos t1 = P.m22

/-- Entries of Rz(t0) * Ry(t1) * Rx(t2). -/
def zyxEntries (t0 t1 t2 : ℝ) (P : M3) : Prop :=
  Real.cos t0 * Real.cos t1 = P.m00 ∧
  Real.cos t0 * Real.sin t1 * Real.sin t2 - Real.sin t0 * Real.cos t2 = P.m01 ∧
  Real.cos t0 * Real.sin t1 * Real.cos t2 + Real.sin t0 * Real.sin t2 = P.m02 ∧
  Real.sin t0 * Real.cos t1 = P.m10 ∧
  Real.sin t0 * Real.sin t1 * Real.sin t2 + Real.cos t0 * Real.cos t2 = P.m11 ∧
  Real.sin t0 * Real.sin t1 * Real.cos t2 - Real.cos t0 * Real.sin t2 = P.m12 ∧
  -Real.sin t1 = P.m20 ∧
  Real.cos t1 * Real.sin t2 = P.m21 ∧
  Real.cos t1 * Real.cos t2 = P.m22

/-- Entries of Rx(t0) * Ry(t1) * Rx(t2). -/
def xyxEntries (t0 t1 t2 : ℝ) (P : M3) : Prop :=
  Real.cos t1 = P.m00 ∧
  Real.sin t1 * Real.sin t2 = P.m01 ∧
  Real.sin t1 * Real.cos t2 = P.m02 ∧
  Real.sin t0 * Real.sin t1 = P.m10 ∧
  Real.cos t0 * Real.cos t2 - Real.sin t0 * Real.cos t1 * Real.sin t2 = P.m11 ∧
  -(Real.cos t0 * Real.sin t2) - Real.sin t0 * Real.cos t1 * Real.cos t2 = P.m12 ∧
  -(Real.cos t0 * Real.sin t1) = P.m20 ∧
  Real.sin t0 * Real.cos t2 + Real.cos t0 * Real.cos t1 * Real.sin t2 = P.m21 ∧
  -(Real.sin t0 * Real.sin t2) + Real.cos t0 * Real.cos t1 * Real.cos t2 = P.m22

/-- Entries of Rz(t0) * Ry(t1) * Rz(t2). -/
def zyzEntries (t0 t1 t2 : ℝ) (P : M3) : Prop :=
  Real.cos t0 * Real.cos t1 * Real.cos t2 - Real.sin t0 * Real.sin t2 = P.m00 ∧
  -(Real.cos t0 * Real.cos t1 * Real.sin t2) - Real.sin t0 * Real.cos t2 = P.m01 ∧
  Real.cos t0 * Real.sin t1 = P.m02 ∧
  Real.sin t0 * Real.cos t1 * Real.cos t2 + Real.cos t0 * Real.sin t2 = P.m10 ∧
  -(Real.sin t0 * Real.cos t1 * Real.sin t2) + Real.cos t0 * Real.cos t2 = P.m11 ∧
  Real.sin t0 * Real.sin t1 = P.m12 ∧
  -(Real.sin t1 * Real.cos t2) = P.m20 ∧
  Real.sin t1 * Real.sin t2 = P.m21 ∧
  Real.cos t1 = P.m22

/-! ### Reconstruction lemmas: the Euler angles returned by eulerCore
recompose to the original rotation matrix. -/

theorem sq_sum_zero_left {a b : ℝ} (h : a ^ 2 + b ^ 2 = 0) : a = 0 := by
  have ha : a ^ 2 = 0 := by nlinarith [sq_nonneg a, sq_nonneg b]
  exact pow_eq_zero_iff (by norm_num) |>.mp ha

theorem sq_sum_zero_right {a b : ℝ} (h : a ^ 2 + b ^ 2 = 0) : b = 0 := by
  have hb : b ^ 2 = 0 := by nlinarith [sq_nonneg a, sq_nonneg b]
  exact pow_eq_zero_iff (by norm_num) |>.mp hb

theorem sq_sum_pos_cases {a b : ℝ} (h : 0 < a ^ 2 + b ^ 2) : a ≠ 0 ∨ b ≠ 0 := by
  by_contra hc
  push_neg at hc
  rw [hc.1, hc.2] at h
  norm_num at h

theorem sq_eq_one_cases {a : ℝ} (h : a ^ 2 = 1) : a = 1 ∨ a = -1 := by
  have hfac : (a - 1) * (a + 1) = 0 := by linear_combination h
  rcases mul_eq_zero.mp hfac with h' | h'
  · exact Or.inl (by linarith)
  · exact Or.inr (by linarith)

theorem shapeA (P : M3) (hP : IsRot P) :
    xyzEntries
      (eulerCoreTB false P.m00 P.m01 P.m02 P.m10 P.m11 P.m12 P.m20 P.m21 P.m22).1
      (eulerCoreTB false P.m00 P.m01 P.m02 P.m10 P.m11 P.m12 P.m20 P.m21 P.m22).2.1
      (eulerCoreTB false P.m00 P.m01 P.m02 P.m10 P.m11 P.m12 P.m20 P.m21 P.m22).2.2
      P := by
  simp only [eulerCoreTB, Bool.false_eq_true, if_false, xyzEntries, Real.cos_neg,
    Real.sin_neg]
  set r0 := atan2 P.m12 P.m22 with hr0def
  set sF := Real.sqrt (P.m00 ^ 2 + P.m01 ^ 2) with hsFdef
  by_cases hdeg : P.m00 ^ 2 + P.m01 ^ 2 = 0
  · -- gimbal lock: the first two entries of row 0 vanish
    have h00 : P.m00 = 0 := sq_sum_zero_left hdeg
    have h01 : P.m01 = 0 := sq_sum_zero_right hdeg
    have hwe : P.m12 ^ 2 + P.m22 ^ 2 = 0 := by linear_combination hP.cn2 - hP.rn0 + hdeg
    have h12 : P.m12 = 0 := sq_sum_zero_left hwe
    have h22 : P.m22 = 0 := sq_sum_zero_right hwe
    have hsF0 : sF = 0 := by rw [hsFdef, hdeg, Real.sqrt_zero]
    have hr0val : r0 = 0 := by rw [hr0def, h12, h22, atan2_zero_zero]
    have hnsh : ¬ (0 < r0) := by rw [hr0val]; exact lt_irrefl 0
    simp only [if_neg hnsh]
    simp only [hr0val, Real.cos_zero, Real.sin_zero, hsF0]
    have hp02sq : P.m02 ^ 2 = 1 := by
      linear_combination hP.rn0 - P.m00 * h00 - P.m01 * h01
    have hC1 : Real.cos (atan2 (-P.m02) 0) = 0 := by
      rcases sq_eq_one_cases hp02sq with h' | h'
      · rw [h', atan2_neg_zero (by norm_num), Real.cos_neg, Real.cos_pi_div_two]
      · rw [h']
        norm_num [atan2_pos_zero, Real.cos_pi_div_two]
    have hS1 : Real.sin (atan2 (-P.m02) 0) = -P.m02 := by
      rcases sq_eq_one_cases hp02sq with h' | h'
      · rw [h', atan2_neg_zero (by norm_num), Real.sin_neg, Real.sin_pi_div_two]
      · rw [h']
        norm_num [atan2_pos_zero, Real.sin_pi_div_two]
    have hXdeg : (0 : ℝ) * P.m20 - 1 * P.m10 = -P.m10 := by ring
    have hYdeg : (1 : ℝ) * P.m11 - 0 * P.m21 = P.m11 := by ring
    rw [hXdeg, hYdeg]
    have hrn1' : P.m10 ^ 2 + P.m11 ^ 2 = 1 := by
      linear_combination hP.rn1 - P.m12 * h12
    have hr2ne : P.m11 ≠ 0 ∨ -P.m10 ≠ 0 := by
      rcases sq_sum_pos_cases (a := P.m10) (b := P.m11) (by rw [hrn1']; norm_num) with
        h' | h'
      · exact Or.inr (by simpa using h')
      · exact Or.inl h'
    have hsqrt2 : Real.sqrt (P.m11 ^ 2 + (-P.m10) ^ 2) = 1 := by
      have harg : P.m11 ^ 2 + (-P.m10) ^ 2 = 1 := by linear_combination hrn1'
      rw [harg, Real.sqrt_one]
    have hC2 : Real.cos (atan2 (-P.m10) P.m11) = P.m11 := by
      rw [cos_atan2 _ _ hr2ne, hsqrt2, div_one]
    have hS2 : Real.sin (atan2 (-P.m10) P.m11) = -P.m10 := by
      rw [sin_atan2 _ _ hr2ne, hsqrt2, div_one]
    rw [hC1, hS1, hC2, hS2]
    refine ⟨?_, ?_, ?_, ?_, ?_, ?_, ?_, ?_, ?_⟩
    · linear_combination -h00
    · linear_combination -h01
    · ring
    · ring
    · ring
    · linear_combination -h12
    · linear_combination hP.rc01a - P.m12 * h01
    · linear_combination hP.rc01b + P.m12 * h00
    · linear_combination -h22
  · -- generic case
    have hpos : 0 < P.m00 ^ 2 + P.m01 ^ 2 :=
      lt_of_le_of_ne (by positivity) (Ne.symm hdeg)
    have hFpos : 0 < sF := by rw [hsFdef]; exact Real.sqrt_pos.mpr hpos
    have hFne : sF ≠ 0 := ne_of_gt hFpos
    have hF2 : sF ^ 2 = P.m00 ^ 2 + P.m01 ^ 2 := by
      rw [hsFdef]; exact Real.sq_sqrt (by positivity)
    have hwe : P.m12 ^ 2 + P.m22 ^ 2 = P.m00 ^ 2 + P.m01 ^ 2 := by
      linear_combination hP.cn2 - hP.rn0
    have hjkne : P.m22 ≠ 0 ∨ P.m12 ≠ 0 := by
      rcases sq_sum_pos_cases (a := P.m12) (b := P.m22) (by rw [hwe]; exact hpos) with
        h' | h'
      · exact Or.inr h'
      · exact Or.inl h'
    have hsqrtjk : Real.sqrt (P.m22 ^ 2 + P.m12 ^ 2) = sF := by
      rw [hsFdef]
      congr 1
      linarith [hwe]
    have hcos0 : Real.cos r0 = P.m22 / sF := by
      rw [hr0def, cos_atan2 _ _ hjkne, hsqrtjk]
    have hsin0 : Real.sin r0 = P.m12 / sF := by
      rw [hr0def, sin_atan2 _ _ hjkne, hsqrtjk]
    have hr2ne : ∀ u : ℝ, u ≠ 0 → (u * (P.m00 / sF) ≠ 0 ∨ u * (P.m01 / sF) ≠ 0) := by
      intro u hu
      rcases sq_sum_pos_cases hpos with h' | h'
      · exact Or.inl (mul_ne_zero hu (div_ne_zero h' hFne))
      · exact Or.inr (mul_ne_zero hu (div_ne_zero h' hFne))
    by_cases hsh : 0 < r0
    · -- the range-normalisation branch: r0 is shifted by -pi
      simp only [if_pos hsh]
      have hC0 : Real.cos (r0 - Real.pi) = -(P.m22 / sF) := by
        rw [Real.cos_sub, Real.cos_pi, Real.sin_pi, hcos0]
        ring
      have hS0 : Real.sin (r0 - Real.pi) = -(P.m12 / sF) := by
        rw [Real.sin_sub, Real.cos_pi, Real.sin_pi, hsin0]
        ring
      have hr1ne : -sF ≠ 0 ∨ -P.m02 ≠ 0 := Or.inl (by simpa using hFne)
      have hsqrt1 : Real.sqrt ((-sF) ^ 2 + (-P.m02) ^ 2) = 1 := by
        have harg : (-sF) ^ 2 + (-P.m02) ^ 2 = 1 := by
          linear_combination hF2 + hP.rn0
        rw [harg, Real.sqrt_one]
      have hC1 : Real.cos (atan2 (-P.m02) (-sF)) = -sF := by
        rw [cos_atan2 _ _ hr1ne, hsqrt1, div_one]
      have hS1 : Real.sin (atan2 (-P.m02) (-sF)) = -P.m02 := by
        rw [sin_atan2 _ _ hr1ne, hsqrt1, div_one]
      rw [hC0, hS0, hC1, hS1]
      have hXeq : -(P.m12 / sF) * P.m20 - -(P.m22 / sF) * P.m10 = -(P.m01 / sF) := by
        field_simp
        linear_combination (-sF ^ 2) * hP.rc12b
      have hYeq : -(P.m22 / sF) * P.m11 - -(P.m12 / sF) * P.m21 = -(P.m00 / sF) := by
        field_simp
        linear_combination (-sF ^ 2) * hP.rc12a
      rw [hXeq, hYeq]
      have hr2args : -(P.m00 / sF) ≠ 0 ∨ -(P.m01 / sF) ≠ 0 := by
        rcases hr2ne (-1) (by norm_num) with h' | h'
        · exact Or.inl (by simpa using h')
        · exact Or.inr (by simpa using h')
      have hsqrt2 : Real.sqrt ((-(P.m00 / sF)) ^ 2 + (-(P.m01 / sF)) ^ 2) = 1 := by
        have harg : (-(P.m00 / sF)) ^ 2 + (-(P.m01 / sF)) ^ 2 = 1 := by
          field_simp
          linear_combination -hF2
        rw [harg, Real.sqrt_one]
      have hC2 : Real.cos (atan2 (-(P.m01 / sF)) (-(P.m00 / sF))) = -(P.m00 / sF) := by
        rw [cos_atan2 _ _ hr2args, hsqrt2, div_one]
      have hS2 : Real.sin (atan2 (-(P.m01 / sF)) (-(P.m00 / sF))) = -(P.m01 / sF) := by
        rw [sin_atan2 _ _ hr2args, hsqrt2, div_one]
      rw [hC2, hS2]
      refine ⟨?_, ?_, ?_, ?_, ?_, ?_, ?_, ?_, ?_⟩
      · field_simp
      · field_simp
      · ring
      · field_simp
        linear_combination (-sF ^ 2 * P.m00) * hP.ro01 + sF ^ 2 * P.m01 * hP.rc01c +
          (-sF ^ 2 * P.m10) * hF2
      · field_simp
        linear_combination (-P.m01) * hP.ro01 + (-P.m00) * hP.rc01c + (-P.m11) * hF2
      · field_simp
      · field_simp
        linear_combination hP.cc12c + (-P.m20) * hP.rn0 + (-P.m02) * hP.rc20b +
          (-P.m20) * hF2
      · field_simp
        linear_combination sF ^ 2 * hP.cc20c + (-sF ^ 2 * P.m21) * hP.rn0 +
          sF ^ 2 * P.m02 * hP.rc20a + (-sF ^ 2 * P.m21) * hF2
      · field_simp
    · -- no shift: r0 is already in range
      simp only [if_neg hsh]
      have hr1ne : sF ≠ 0 ∨ -P.m02 ≠ 0 := Or.inl hFne
      have hsqrt1 : Real.sqrt (sF ^ 2 + (-P.m02) ^ 2) = 1 := by
        have harg : sF ^ 2 + (-P.m02) ^ 2 = 1 := by
          linear_combination hF2 + hP.rn0
        rw [harg, Real.sqrt_one]
      have hC1 : Real.cos (atan2 (-P.m02) sF) = sF := by
        rw [cos_atan2 _ _ hr1ne, hsqrt1, div_one]
      have hS1 : Real.sin (atan2 (-P.m02) sF) = -P.m02 := by
        rw [sin_atan2 _ _ hr1ne, hsqrt1, div_one]
      rw [hcos0, hsin0, hC1, hS1]
      have hXeq : P.m12 / sF * P.m20 - P.m22 / sF * P.m10 = P.m01 / sF := by
        field_simp
        linear_combination hP.rc12b
      have hYeq : P.m22 / sF * P.m11 - P.m12 / sF * P.m21 = P.m00 / sF := by
        field_simp
        linear_combination hP.rc12a
      rw [hXeq, hYeq]
      have hr2args : P.m00 / sF ≠ 0 ∨ P.m01 / sF ≠ 0 := by
        rcases hr2ne 1 (by norm_num) with h' | h'
        · exact Or.inl (by simpa using h')
        · exact Or.inr (by simpa using h')
      have hsqrt2 : Real.sqrt ((P.m00 / sF) ^ 2 + (P.m01 / sF) ^ 2) = 1 := by
        have harg : (P.m00 / sF) ^ 2 + (P.m01 / sF) ^ 2 = 1 := by
          field_simp
          linear_combination -hF2
        rw [harg, Real.sqrt_one]
      have hC2 : Real.cos (atan2 (P.m01 / sF) (P.m00 / sF)) = P.m00 / sF := by
        rw [cos_atan2 _ _ hr2args, hsqrt2, div_one]
      have hS2 : Real.sin (atan2 (P.m01 / sF) (P.m00 / sF)) = P.m01 / sF := by
        rw [sin_atan2 _ _ hr2args, hsqrt2, div_one]
      rw [hC2, hS2]
      refine ⟨?_, ?_, ?_, ?_, ?_, ?_, ?_, ?_, ?_⟩
      · field_simp
      · field_simp
      · ring
      · field_simp
        linear_combination (-sF ^ 2 * P.m00) * hP.ro01 + sF ^ 2 * P.m01 * hP.rc01c +
          (-sF ^ 2 * P.m10) * hF2
      · field_simp
        linear_combination (-P.m01) * hP.ro01 + (-P.m00) * hP.rc01c + (-P.m11) * hF2
      · field_simp
      · field_simp
        linear_combination hP.cc12c + (-P.m20) * hP.rn0 + (-P.m02) * hP.rc20b +
          (-P.m20) * hF2
      · field_simp
        linear_combination sF ^ 2 * hP.cc20c + (-sF ^ 2 * P.m21) * hP.rn0 +
          sF ^ 2 * P.m02 * hP.rc20a + (-sF ^ 2 * P.m21) * hF2
      · field_simp

set_option maxHeartbeats 1000000 in
theorem shapeB (P : M3) (hP : IsRot P) :
    zyxEntries
      (eulerCoreTB true P.m22 P.m21 P.m20 P.m12 P.m11 P.m10 P.m02 P.m01 P.m00).1
      (eulerCoreTB true P.m22 P.m21 P.m20 P.m12 P.m11 P.m10 P.m02 P.m01 P.m00).2.1
      (eulerCoreTB true P.m22 P.m21 P.m20 P.m12 P.m11 P.m10 P.m02 P.m01 P.m00).2.2
      P := by
  simp only [eulerCoreTB, eq_self_iff_true, if_true, zyxEntries]
  set r0 := atan2 P.m10 P.m00 with hr0def
  set sF := Real.sqrt (P.m22 ^ 2 + P.m21 ^ 2) with hsFdef
  by_cases hdeg : P.m22 ^ 2 + P.m21 ^ 2 = 0
  · -- gimbal lock
    have h22 : P.m22 = 0 := sq_sum_zero_left hdeg
    have h21 : P.m21 = 0 := sq_sum_zero_right hdeg
    have hwe : P.m00 ^ 2 + P.m10 ^ 2 = 0 := by linear_combination hP.cn0 - hP.rn2 + hdeg
    have h00 : P.m00 = 0 := sq_sum_zero_left hwe
    have h10 : P.m10 = 0 := sq_sum_zero_right hwe
    have hsF0 : sF = 0 := by rw [hsFdef, hdeg, Real.sqrt_zero]
    have hr0val : r0 = 0 := by rw [hr0def, h10, h00, atan2_zero_zero]
    have hnsh : ¬ (r0 < 0) := by rw [hr0val]; exact lt_irrefl 0
    simp only [if_neg hnsh]
    simp only [hr0val, Real.cos_zero, Real.sin_zero, hsF0]
    have hp20sq : P.m20 ^ 2 = 1 := by
      linear_combination hP.rn2 - P.m21 * h21 - P.m22 * h22
    have hC1 : Real.cos (atan2 (-P.m20) 0) = 0 := by
      rcases sq_eq_one_cases hp20sq with h' | h'
      · rw [h', atan2_neg_zero (by norm_num), Real.cos_neg, Real.cos_pi_div_two]
      · rw [h']
        norm_num [atan2_pos_zero, Real.cos_pi_div_two]
    have hS1 : Real.sin (atan2 (-P.m20) 0) = -P.m20 := by
      rcases sq_eq_one_cases hp20sq with h' | h'
      · rw [h', atan2_neg_zero (by norm_num), Real.sin_neg, Real.sin_pi_div_two]
      · rw [h']
        norm_num [atan2_pos_zero, Real.sin_pi_div_two]
    have hXdeg : (0 : ℝ) * P.m02 - 1 * P.m12 = -P.m12 := by ring
    have hYdeg : (1 : ℝ) * P.m11 - 0 * P.m01 = P.m11 := by ring
    rw [hXdeg, hYdeg]
    have hrn1' : P.m11 ^ 2 + P.m12 ^ 2 = 1 := by
      linear_combination hP.rn1 - P.m10 * h10
    have hr2ne : P.m11 ≠ 0 ∨ -P.m12 ≠ 0 := by
      rcases sq_sum_pos_cases (a := P.m12) (b := P.m11)
        (by nlinarith [hrn1']) with h' | h'
      · exact Or.inr (by simpa using h')
      · exact Or.inl h'
    have hsqrt2 : Real.sqrt (P.m11 ^ 2 + (-P.m12) ^ 2) = 1 := by
      have harg : P.m11 ^ 2 + (-P.m12) ^ 2 = 1 := by linear_combination hrn1'
      rw [harg, Real.sqrt_one]
    have hC2 : Real.cos (atan2 (-P.m12) P.m11) = P.m11 := by
      rw [cos_atan2 _ _ hr2ne, hsqrt2, div_one]
    have hS2 : Real.sin (atan2 (-P.m12) P.m11) = -P.m12 := by
      rw [sin_atan2 _ _ hr2ne, hsqrt2, div_one]
    rw [hC1, hS1, hC2, hS2]
    refine ⟨?_, ?_, ?_, ?_, ?_, ?_, ?_, ?_, ?_⟩
    · linear_combination -h00
    · linear_combination hP.cc20a + P.m10 * h22
    · linear_combination hP.cc01a - P.m21 * h10
    · linear_combination -h10
    · ring
    · ring
    · ring
    · linear_combination -h21
    · linear_combination -h22
  · -- generic case
    have hpos : 0 < P.m22 ^ 2 + P.m21 ^ 2 :=
      lt_of_le_of_ne (by positivity) (Ne.symm hdeg)
    have hFpos : 0 < sF := by rw [hsFdef]; exact Real.sqrt_pos.mpr hpos
    have hFne : sF ≠ 0 := ne_of_gt hFpos
    have hF2 : sF ^ 2 = P.m22 ^ 2 + P.m21 ^ 2 := by
      rw [hsFdef]; exact Real.sq_sqrt (by positivity)
    have hwe : P.m00 ^ 2 + P.m10 ^ 2 = P.m22 ^ 2 + P.m21 ^ 2 := by
      linear_combination hP.cn0 - hP.rn2
    have hjkne : P.m00 ≠ 0 ∨ P.m10 ≠ 0 := by
      rcases sq_sum_pos_cases (a := P.m00) (b := P.m10) (by rw [hwe]; exact hpos) with
        h' | h'
      · exact Or.inl h'
      · exact Or.inr h'
    have hsqrtjk : Real.sqrt (P.m00 ^ 2 + P.m10 ^ 2) = sF := by
      rw [hsFdef, hwe]
    have hcos0 : Real.cos r0 = P.m00 / sF := by
      rw [hr0def, cos_atan2 _ _ hjkne, hsqrtjk]
    have hsin0 : Real.sin r0 = P.m10 / sF := by
      rw [hr0def, sin_atan2 _ _ hjkne, hsqrtjk]
    have hr2ne : ∀ u : ℝ, u ≠ 0 → (u * (P.m22 / sF) ≠ 0 ∨ u * (P.m21 / sF) ≠ 0) := by
      intro u hu
      rcases sq_sum_pos_cases hpos with h' | h'
      · exact Or.inl (mul_ne_zero hu (div_ne_zero h' hFne))
      · exact Or.inr (mul_ne_zero hu (div_ne_zero h' hFne))
    by_cases hsh : r0 < 0
    · -- range-normalisation branch: r0 is shifted by +pi
      have hnpos : ¬ (0 < r0) := by linarith
      simp only [if_pos hsh, if_neg hnpos]
      have hC0 : Real.cos (r0 + Real.pi) = -(P.m00 / sF) := by
        rw [Real.cos_add_pi, hcos0]
      have hS0 : Real.sin (r0 + Real.pi) = -(P.m10 / sF) := by
        rw [Real.sin_add_pi, hsin0]
      have hr1ne : -sF ≠ 0 ∨ -P.m20 ≠ 0 := Or.inl (by simpa using hFne)
      have hsqrt1 : Real.sqrt ((-sF) ^ 2 + (-P.m20) ^ 2) = 1 := by
        have harg : (-sF) ^ 2 + (-P.m20) ^ 2 = 1 := by
          linear_combination hF2 + hP.rn2
        rw [harg, Real.sqrt_one]
      have hC1 : Real.cos (atan2 (-P.m20) (-sF)) = -sF := by
        rw [cos_atan2 _ _ hr1ne, hsqrt1, div_one]
      have hS1 : Real.sin (atan2 (-P.m20) (-sF)) = -P.m20 := by
        rw [sin_atan2 _ _ hr1ne, hsqrt1, div_one]
      rw [hC0, hS0, hC1, hS1]
      have hXeq : -(P.m10 / sF) * P.m02 - -(P.m00 / sF) * P.m12 = -(P.m21 / sF) := by
        field_simp
        linear_combination (-sF ^ 2) * hP.rc01b
      have hYeq : -(P.m00 / sF) * P.m11 - -(P.m10 / sF) * P.m01 = -(P.m22 / sF) := by
        field_simp
        linear_combination (-sF ^ 2) * hP.cc01c
      rw [hXeq, hYeq]
      have hr2args : -(P.m22 / sF) ≠ 0 ∨ -(P.m21 / sF) ≠ 0 := by
        rcases hr2ne (-1) (by norm_num) with h' | h'
        · exact Or.inl (by simpa using h')
        · exact Or.inr (by simpa using h')
      have hsqrt2 : Real.sqrt ((-(P.m22 / sF)) ^ 2 + (-(P.m21 / sF)) ^ 2) = 1 := by
        have harg : (-(P.m22 / sF)) ^ 2 + (-(P.m21 / sF)) ^ 2 = 1 := by
          field_simp
          linear_combination -hF2
        rw [harg, Real.sqrt_one]
      have hC2 : Real.cos (atan2 (-(P.m21 / sF)) (-(P.m22 / sF))) = -(P.m22 / sF) := by
        rw [cos_atan2 _ _ hr2args, hsqrt2, div_one]
      have hS2 : Real.sin (atan2 (-(P.m21 / sF)) (-(P.m22 / sF))) = -(P.m21 / sF) := by
        rw [sin_atan2 _ _ hr2args, hsqrt2, div_one]
      rw [hC2, hS2]
      refine ⟨?_, ?_, ?_, ?_, ?_, ?_, ?_, ?_, ?_⟩
      · field_simp
      · field_simp
        linear_combination (-sF ^ 2 * P.m00) * hP.co01 + sF ^ 2 * P.m10 * hP.cc01c +
          (-sF ^ 2 * P.m01) * hF2 + sF ^ 2 * P.m01 * hwe
      · field_simp
        linear_combination sF ^ 2 * hP.rc12c + (-sF ^ 2 * P.m02) * hP.cn0 +
          (-sF ^ 2 * P.m20) * hP.cc20b + (-sF ^ 2 * P.m02) * hF2 + sF ^ 2 * P.m02 * hwe
      · field_simp
      · field_simp
        linear_combination (-sF ^ 2 * P.m10) * hP.co01 + (-sF ^ 2 * P.m00) * hP.cc01c +
          (-sF ^ 2 * P.m11) * hF2 + sF ^ 2 * P.m11 * hwe
      · field_simp
        linear_combination sF ^ 2 * hP.rc20c + (-sF ^ 2 * P.m12) * hP.cn0 +
          sF ^ 2 * P.m20 * hP.cc20a + (-sF ^ 2 * P.m12) * hF2 + sF ^ 2 * P.m12 * hwe
      · ring
      · field_simp
      · field_simp
    · -- no shift
      have hnsh0 : ¬ (r0 < 0) := hsh
      simp only [if_neg hnsh0]
      have hr1ne : sF ≠ 0 ∨ -P.m20 ≠ 0 := Or.inl hFne
      have hsqrt1 : Real.sqrt (sF ^ 2 + (-P.m20) ^ 2) = 1 := by
        have harg : sF ^ 2 + (-P.m20) ^ 2 = 1 := by
          linear_combination hF2 + hP.rn2
        rw [harg, Real.sqrt_one]
      have hC1 : Real.cos (atan2 (-P.m20) sF) = sF := by
        rw [cos_atan2 _ _ hr1ne, hsqrt1, div_one]
      have hS1 : Real.sin (atan2 (-P.m20) sF) = -P.m20 := by
        rw [sin_atan2 _ _ hr1ne, hsqrt1, div_one]
      rw [hcos0, hsin0, hC1, hS1]
      have hXeq : P.m10 / sF * P.m02 - P.m00 / sF * P.m12 = P.m21 / sF := by
        field_simp
        linear_combination hP.rc01b
      have hYeq : P.m00 / sF * P.m11 - P.m10 / sF * P.m01 = P.m22 / sF := by
        field_simp
        linear_combination hP.cc01c
      rw [hXeq, hYeq]
      have hr2args : P.m22 / sF ≠ 0 ∨ P.m21 / sF ≠ 0 := by
        rcases hr2ne 1 (by norm_num) with h' | h'
        · exact Or.inl (by simpa using h')
        · exact Or.inr (by simpa using h')
      have hsqrt2 : Real.sqrt ((P.m22 / sF) ^ 2 + (P.m21 / sF) ^ 2) = 1 := by
        have harg : (P.m22 / sF) ^ 2 + (P.m21 / sF) ^ 2 = 1 := by
          field_simp
          linear_combination -hF2
        rw [harg, Real.sqrt_one]
      have hC2 : Real.cos (atan2 (P.m21 / sF) (P.m22 / sF)) = P.m22 / sF := by
        rw [cos_atan2 _ _ hr2args, hsqrt2, div_one]
      have hS2 : Real.sin (atan2 (P.m21 / sF) (P.m22 / sF)) = P.m21 / sF := by
        rw [sin_atan2 _ _ hr2args, hsqrt2, div_one]
      rw [hC2, hS2]
      refine ⟨?_, ?_, ?_, ?_, ?_, ?_, ?_, ?_, ?_⟩
      · field_simp
      · field_simp
        linear_combination (-sF ^ 2 * P.m00) * hP.co01 + sF ^ 2 * P.m10 * hP.cc01c +
          (-sF ^ 2 * P.m01) * hF2 + sF ^ 2 * P.m01 * hwe
      · field_simp
        linear_combination sF ^ 2 * hP.rc12c + (-sF ^ 2 * P.m02) * hP.cn0 +
          (-sF ^ 2 * P.m20) * hP.cc20b + (-sF ^ 2 * P.m02) * hF2 + sF ^ 2 * P.m02 * hwe
      · field_simp
      · field_simp
        linear_combination (-sF ^ 2 * P.m10) * hP.co01 + (-sF ^ 2 * P.m00) * hP.cc01c +
          (-sF ^ 2 * P.m11) * hF2 + sF ^ 2 * P.m11 * hwe
      · field_simp
        linear_combination sF ^ 2 * hP.rc20c + (-sF ^ 2 * P.m12) * hP.cn0 +
          sF ^ 2 * P.m20 * hP.cc20a + (-sF ^ 2 * P.m12) * hF2 + sF ^ 2 * P.m12 * hwe
      · ring
      · field_simp
      · field_simp

set_option maxHeartbeats 1000000 in
theorem shapeC (P : M3) (hP : IsRot P) :
    xyxEntries
      (eulerCoreProper false P.m00 P.m01 P.m02 P.m10 P.m11 P.m12 P.m20 P.m21 P.m22).1
      (eulerCoreProper false P.m00 P.m01 P.m02 P.m10 P.m11 P.m12 P.m20 P.m21 P.m22).2.1
      (eulerCoreProper false P.m00 P.m01 P.m02 P.m10 P.m11 P.m12 P.m20 P.m21 P.m22).2.2
      P := by
  simp only [eulerCoreProper, Bool.false_eq_true, if_false, xyxEntries, Real.cos_neg,
    Real.sin_neg]
  set r0 := atan2 P.m10 P.m20 with hr0def
  set sF := Real.sqrt (P.m10 ^ 2 + P.m20 ^ 2) with hsFdef
  by_cases hdeg : P.m10 ^ 2 + P.m20 ^ 2 = 0
  · have h10 : P.m10 = 0 := sq_sum_zero_left hdeg
    have h20 : P.m20 = 0 := sq_sum_zero_right hdeg
    have hwe : P.m01 ^ 2 + P.m02 ^ 2 = 0 := by linear_combination hP.rn0 - hP.cn0 + hdeg
    have h01 : P.m01 = 0 := sq_sum_zero_left hwe
    have h02 : P.m02 = 0 := sq_sum_zero_right hwe
    have hsF0 : sF = 0 := by rw [hsFdef, hdeg, Real.sqrt_zero]
    have hr0val : r0 = 0 := by rw [hr0def, h10, h20, atan2_zero_zero]
    have hnsh : ¬ (0 < r0) := by rw [hr0val]; exact lt_irrefl 0
    simp only [if_neg hnsh]
    simp only [hr0val, Real.cos_zero, Real.sin_zero, hsF0]
    have hm00sq : P.m00 ^ 2 = 1 := by
      linear_combination hP.cn0 - P.m10 * h10 - P.m20 * h20
    have hC1 : Real.cos (atan2 0 P.m00) = P.m00 := by
      rcases sq_eq_one_cases hm00sq with h' | h'
      · rw [h', atan2_zero_of_pos (by norm_num), Real.cos_zero]
      · rw [h', atan2_zero_of_neg (by norm_num), Real.cos_pi]
    have hS1 : Real.sin (atan2 0 P.m00) = 0 := by
      rcases sq_eq_one_cases hm00sq with h' | h'
      · rw [h', atan2_zero_of_pos (by norm_num), Real.sin_zero]
      · rw [h', atan2_zero_of_neg (by norm_num), Real.sin_pi]
    have hXdeg : (1 : ℝ) * P.m12 - 0 * P.m22 = P.m12 := by ring
    have hYdeg : (1 : ℝ) * P.m11 - 0 * P.m21 = P.m11 := by ring
    rw [hXdeg, hYdeg]
    have hrn1' : P.m11 ^ 2 + P.m12 ^ 2 = 1 := by
      linear_combination hP.rn1 - P.m10 * h10
    have hr2ne : P.m11 ≠ 0 ∨ P.m12 ≠ 0 := by
      rcases sq_sum_pos_cases (a := P.m12) (b := P.m11)
        (by nlinarith [hrn1']) with h' | h'
      · exact Or.inr h'
      · exact Or.inl h'
    have hsqrt2 : Real.sqrt (P.m11 ^ 2 + P.m12 ^ 2) = 1 := by
      rw [hrn1', Real.sqrt_one]
    have hC2 : Real.cos (atan2 P.m12 P.m11) = P.m11 := by
      rw [cos_atan2 _ _ hr2ne, hsqrt2, div_one]
    have hS2 : Real.sin (atan2 P.m12 P.m11) = P.m12 := by
      rw [sin_atan2 _ _ hr2ne, hsqrt2, div_one]
    rw [hC1, hS1, hC2, hS2]
    refine ⟨?_, ?_, ?_, ?_, ?_, ?_, ?_, ?_, ?_⟩
    · ring
    · linear_combination -h01
    · linear_combination -h02
    · linear_combination -h10
    · ring
    · ring
    · linear_combination -h20
    · linear_combination hP.cc20c + (-P.m02) * h10
    · linear_combination P.m22 * hm00sq + (-(P.m00 * P.m02)) * h20 + (-P.m00) * hP.rc20b
  · have hpos : 0 < P.m10 ^ 2 + P.m20 ^ 2 :=
      lt_of_le_of_ne (by positivity) (Ne.symm hdeg)
    have hFpos : 0 < sF := by rw [hsFdef]; exact Real.sqrt_pos.mpr hpos
    have hFne : sF ≠ 0 := ne_of_gt hFpos
    have hF2 : sF ^ 2 = P.m10 ^ 2 + P.m20 ^ 2 := by
      rw [hsFdef]; exact Real.sq_sqrt (by positivity)
    have hwe : P.m01 ^ 2 + P.m02 ^ 2 = P.m10 ^ 2 + P.m20 ^ 2 := by
      linear_combination hP.rn0 - hP.cn0
    have hjkne : P.m20 ≠ 0 ∨ P.m10 ≠ 0 := by
      rcases sq_sum_pos_cases hpos with h' | h'
      · exact Or.inr h'
      · exact Or.inl h'
    have hsqrtjk : Real.sqrt (P.m20 ^ 2 + P.m10 ^ 2) = sF := by
      rw [hsFdef]
      congr 1
      ring
    have hcos0 : Real.cos r0 = P.m20 / sF := by
      rw [hr0def, cos_atan2 _ _ hjkne, hsqrtjk]
    have hsin0 : Real.sin r0 = P.m10 / sF := by
      rw [hr0def, sin_atan2 _ _ hjkne, hsqrtjk]
    have hr1ne : P.m00 ≠ 0 ∨ sF ≠ 0 := Or.inr hFne
    have hsqrt1 : Real.sqrt (P.m00 ^ 2 + sF ^ 2) = 1 := by
      have harg : P.m00 ^ 2 + sF ^ 2 = 1 := by
        linear_combination hF2 + hP.cn0
      rw [harg, Real.sqrt_one]
    have hC1 : Real.cos (atan2 sF P.m00) = P.m00 := by
      rw [cos_atan2 _ _ hr1ne, hsqrt1, div_one]
    have hS1 : Real.sin (atan2 sF P.m00) = sF := by
      rw [sin_atan2 _ _ hr1ne, hsqrt1, div_one]
    have hr2ne : ∀ u : ℝ, u ≠ 0 → (u * (P.m02 / sF) ≠ 0 ∨ u * (P.m01 / sF) ≠ 0) := by
      intro u hu
      rcases sq_sum_pos_cases (a := P.m01) (b := P.m02) (by rw [hwe]; exact hpos) with
        h' | h'
      · exact Or.inr (mul_ne_zero hu (div_ne_zero h' hFne))
      · exact Or.inl (mul_ne_zero hu (div_ne_zero h' hFne))
    by_cases hsh : 0 < r0
    · simp only [if_pos hsh]
      have hC0 : Real.cos (r0 - Real.pi) = -(P.m20 / sF) := by
        rw [Real.cos_sub, Real.cos_pi, Real.sin_pi, hcos0]
        ring
      have hS0 : Real.sin (r0 - Real.pi) = -(P.m10 / sF) := by
        rw [Real.sin_sub, Real.cos_pi, Real.sin_pi, hsin0]
        ring
      rw [hC0, hS0, Real.cos_neg, Real.sin_neg, hC1, hS1]
      have hXeq : -(P.m20 / sF) * P.m12 - -(P.m10 / sF) * P.m22 = -(P.m01 / sF) := by
        field_simp
        linear_combination (-sF ^ 2) * hP.rc12b
      have hYeq : -(P.m20 / sF) * P.m11 - -(P.m10 / sF) * P.m21 = P.m02 / sF := by
        field_simp
        linear_combination sF ^ 2 * hP.rc12c
      rw [hXeq, hYeq]
      have hr2args : P.m02 / sF ≠ 0 ∨ -(P.m01 / sF) ≠ 0 := by
        rcases hr2ne 1 (by norm_num) with h' | h'
        · exact Or.inl (by simpa using h')
        · exact Or.inr (by simpa using h')
      have hsqrt2 : Real.sqrt ((P.m02 / sF) ^ 2 + (-(P.m01 / sF)) ^ 2) = 1 := by
        have harg : (P.m02 / sF) ^ 2 + (-(P.m01 / sF)) ^ 2 = 1 := by
          field_simp
          linear_combination -hF2 + hwe
        rw [harg, Real.sqrt_one]
      have hC2 : Real.cos (atan2 (-(P.m01 / sF)) (P.m02 / sF)) = P.m02 / sF := by
        rw [cos_atan2 _ _ hr2args, hsqrt2, div_one]
      have hS2 : Real.sin (atan2 (-(P.m01 / sF)) (P.m02 / sF)) = -(P.m01 / sF) := by
        rw [sin_atan2 _ _ hr2args, hsqrt2, div_one]
      rw [hC2, hS2]
      refine ⟨?_, ?_, ?_, ?_, ?_, ?_, ?_, ?_, ?_⟩
      · ring
      · field_simp
      · field_simp
      · field_simp
      · field_simp
        linear_combination (-sF ^ 2 * P.m10) * hP.co01 + sF ^ 2 * P.m20 * hP.rc12c +
          (-sF ^ 2 * P.m11) * hF2
      · field_simp
        linear_combination (-P.m10) * hP.co02 + (-P.m20) * hP.rc12b + (-P.m12) * hF2
      · field_simp
      · field_simp
        linear_combination (-P.m20) * hP.co01 + (-P.m10) * hP.rc12c + (-P.m21) * hF2
      · field_simp
        linear_combination (-sF ^ 2 * P.m20) * hP.co02 + sF ^ 2 * P.m10 * hP.rc12b +
          (-sF ^ 2 * P.m22) * hF2
    · simp only [if_neg hsh]
      rw [hcos0, hsin0, hC1, hS1]
      have hXeq : P.m20 / sF * P.m12 - P.m10 / sF * P.m22 = P.m01 / sF := by
        field_simp
        linear_combination hP.rc12b
      have hYeq : P.m20 / sF * P.m11 - P.m10 / sF * P.m21 = -(P.m02 / sF) := by
        field_simp
        linear_combination -hP.rc12c
      rw [hXeq, hYeq]
      have hr2args : -(P.m02 / sF) ≠ 0 ∨ P.m01 / sF ≠ 0 := by
        rcases hr2ne 1 (by norm_num) with h' | h'
        · exact Or.inl (by simpa using h')
        · exact Or.inr (by simpa using h')
      have hsqrt2 : Real.sqrt ((-(P.m02 / sF)) ^ 2 + (P.m01 / sF) ^ 2) = 1 := by
        have harg : (-(P.m02 / sF)) ^ 2 + (P.m01 / sF) ^ 2 = 1 := by
          field_simp
          linear_combination -hF2 + hwe
        rw [harg, Real.sqrt_one]
      have hC2 : Real.cos (atan2 (P.m01 / sF) (-(P.m02 / sF))) = -(P.m02 / sF) := by
        rw [cos_atan2 _ _ hr2args, hsqrt2, div_one]
      have hS2 : Real.sin (atan2 (P.m01 / sF) (-(P.m02 / sF))) = P.m01 / sF := by
        rw [sin_atan2 _ _ hr2args, hsqrt2, div_one]
      rw [hC2, hS2]
      refine ⟨?_, ?_, ?_, ?_, ?_, ?_, ?_, ?_, ?_⟩
      · ring
      · field_simp
      · field_simp
      · field_simp
      · field_simp
        linear_combination (-sF ^ 2 * P.m10) * hP.co01 + sF ^ 2 * P.m20 * hP.rc12c +
          (-sF ^ 2 * P.m11) * hF2
      · field_simp
        linear_combination (-P.m10) * hP.co02 + (-P.m20) * hP.rc12b + (-P.m12) * hF2
      · field_simp
      · field_simp
        linear_combination (-P.m20) * hP.co01 + (-P.m10) * hP.rc12c + (-P.m21) * hF2
      · field_simp
        linear_combination (-sF ^ 2 * P.m20) * hP.co02 + sF ^ 2 * P.m10 * hP.rc12b +
          (-sF ^ 2 * P.m22) * hF2

set_option maxHeartbeats 1000000 in
theorem shapeD (P : M3) (hP : IsRot P) :
    zyzEntries
      (eulerCoreProper true P.m22 P.m21 P.m20 P.m12 P.m11 P.m10 P.m02 P.m01 P.m00).1
      (eulerCoreProper true P.m22 P.m21 P.m20 P.m12 P.m11 P.m10 P.m02 P.m01 P.m00).2.1
      (eulerCoreProper true P.m22 P.m21 P.m20 P.m12 P.m11 P.m10 P.m02 P.m01 P.m00).2.2
      P := by
  simp only [eulerCoreProper, eq_self_iff_true, if_true, zyzEntries]
  set r0 := atan2 P.m12 P.m02 with hr0def
  set sF := Real.sqrt (P.m12 ^ 2 + P.m02 ^ 2) with hsFdef
  by_cases hdeg : P.m12 ^ 2 + P.m02 ^ 2 = 0
  · have h12 : P.m12 = 0 := sq_sum_zero_left hdeg
    have h02 : P.m02 = 0 := sq_sum_zero_right hdeg
    have hwe : P.m20 ^ 2 + P.m21 ^ 2 = 0 := by linear_combination hP.rn2 - hP.cn2 + hdeg
    have h20 : P.m20 = 0 := sq_sum_zero_left hwe
    have h21 : P.m21 = 0 := sq_sum_zero_right hwe
    have hsF0 : sF = 0 := by rw [hsFdef, hdeg, Real.sqrt_zero]
    have hr0val : r0 = 0 := by rw [hr0def, h12, h02, atan2_zero_zero]
    have hnsh : ¬ (r0 < 0) := by rw [hr0val]; exact lt_irrefl 0
    simp only [if_neg hnsh]
    simp only [hr0val, Real.cos_zero, Real.sin_zero, hsF0]
    have hm22sq : P.m22 ^ 2 = 1 := by
      linear_combination hP.cn2 - P.m02 * h02 - P.m12 * h12
    have hC1 : Real.cos (atan2 0 P.m22) = P.m22 := by
      rcases sq_eq_one_cases hm22sq with h' | h'
      · rw [h', atan2_zero_of_pos (by norm_num), Real.cos_zero]
      · rw [h', atan2_zero_of_neg (by norm_num), Real.cos_pi]
    have hS1 : Real.sin (atan2 0 P.m22) = 0 := by
      rcases sq_eq_one_cases hm22sq with h' | h'
      · rw [h', atan2_zero_of_pos (by norm_num), Real.sin_zero]
      · rw [h', atan2_zero_of_neg (by norm_num), Real.sin_pi]
    have hXdeg : (1 : ℝ) * P.m10 - 0 * P.m00 = P.m10 := by ring
    have hYdeg : (1 : ℝ) * P.m11 - 0 * P.m01 = P.m11 := by ring
    rw [hXdeg, hYdeg]
    have hrn1' : P.m11 ^ 2 + P.m10 ^ 2 = 1 := by
      linear_combination hP.rn1 - P.m12 * h12
    have hr2ne : P.m11 ≠ 0 ∨ P.m10 ≠ 0 := by
      rcases sq_sum_pos_cases (a := P.m10) (b := P.m11)
        (by nlinarith [hrn1']) with h' | h'
      · exact Or.inr h'
      · exact Or.inl h'
    have hsqrt2 : Real.sqrt (P.m11 ^ 2 + P.m10 ^ 2) = 1 := by
      rw [hrn1', Real.sqrt_one]
    have hC2 : Real.cos (atan2 P.m10 P.m11) = P.m11 := by
      rw [cos_atan2 _ _ hr2ne, hsqrt2, div_one]
    have hS2 : Real.sin (atan2 P.m10 P.m11) = P.m10 := by
      rw [sin_atan2 _ _ hr2ne, hsqrt2, div_one]
    rw [hC1, hS1, hC2, hS2]
    refine ⟨?_, ?_, ?_, ?_, ?_, ?_, ?_, ?_, ?_⟩
    · linear_combination hP.rc12a + P.m21 * h12
    · linear_combination hP.rc12b + (-P.m20) * h12
    · linear_combination -h02
    · ring
    · ring
    · linear_combination -h12
    · linear_combination -h20
    · linear_combination -h21
    · ring
  · have hpos : 0 < P.m12 ^ 2 + P.m02 ^ 2 :=
      lt_of_le_of_ne (by positivity) (Ne.symm hdeg)
    have hFpos : 0 < sF := by rw [hsFdef]; exact Real.sqrt_pos.mpr hpos
    have hFne : sF ≠ 0 := ne_of_gt hFpos
    have hF2 : sF ^ 2 = P.m12 ^ 2 + P.m02 ^ 2 := by
      rw [hsFdef]; exact Real.sq_sqrt (by positivity)
    have hwe : P.m20 ^ 2 + P.m21 ^ 2 = P.m12 ^ 2 + P.m02 ^ 2 := by
      linear_combination hP.rn2 - hP.cn2
    have hjkne : P.m02 ≠ 0 ∨ P.m12 ≠ 0 := by
      rcases sq_sum_pos_cases hpos with h' | h'
      · exact Or.inr h'
      · exact Or.inl h'
    have hsqrtjk : Real.sqrt (P.m02 ^ 2 + P.m12 ^ 2) = sF := by
      rw [hsFdef]
      congr 1
      ring
    have hcos0 : Real.cos r0 = P.m02 / sF := by
      rw [hr0def, cos_atan2 _ _ hjkne, hsqrtjk]
    have hsin0 : Real.sin r0 = P.m12 / sF := by
      rw [hr0def, sin_atan2 _ _ hjkne, hsqrtjk]
    have hr1ne : P.m22 ≠ 0 ∨ sF ≠ 0 := Or.inr hFne
    have hsqrt1 : Real.sqrt (P.m22 ^ 2 + sF ^ 2) = 1 := by
      have harg : P.m22 ^ 2 + sF ^ 2 = 1 := by
        linear_combination hF2 + hP.cn2
      rw [harg, Real.sqrt_one]
    have hC1 : Real.cos (atan2 sF P.m22) = P.m22 := by
      rw [cos_atan2 _ _ hr1ne, hsqrt1, div_one]
    have hS1 : Real.sin (atan2 sF P.m22) = sF := by
      rw [sin_atan2 _ _ hr1ne, hsqrt1, div_one]
    have hr2ne : ∀ u : ℝ, u ≠ 0 → (u * (P.m20 / sF) ≠ 0 ∨ u * (P.m21 / sF) ≠ 0) := by
      intro u hu
      rcases sq_sum_pos_cases (a := P.m20) (b := P.m21) (by rw [hwe]; exact hpos) with
        h' | h'
      · exact Or.inl (mul_ne_zero hu (div_ne_zero h' hFne))
      · exact Or.inr (mul_ne_zero hu (div_ne_zero h' hFne))
    by_cases hsh : r0 < 0
    · have hnpos : ¬ (0 < r0) := by linarith
      simp only [if_pos hsh, if_neg hnpos]
      have hC0 : Real.cos (r0 + Real.pi) = -(P.m02 / sF) := by
        rw [Real.cos_add_pi, hcos0]
      have hS0 : Real.sin (r0 + Real.pi) = -(P.m12 / sF) := by
        rw [Real.sin_add_pi, hsin0]
      rw [hC0, hS0, Real.cos_neg, Real.sin_neg, hC1, hS1]
      have hXeq : -(P.m02 / sF) * P.m10 - -(P.m12 / sF) * P.m00 = -(P.m21 / sF) := by
        field_simp
        linear_combination (-sF ^ 2) * hP.cc20c
      have hYeq : -(P.m02 / sF) * P.m11 - -(P.m12 / sF) * P.m01 = P.m20 / sF := by
        field_simp
        linear_combination sF ^ 2 * hP.cc12c
      rw [hXeq, hYeq]
      have hr2args : P.m20 / sF ≠ 0 ∨ -(P.m21 / sF) ≠ 0 := by
        rcases hr2ne 1 (by norm_num) with h' | h'
        · exact Or.inl (by simpa using h')
        · exact Or.inr (by simpa using h')
      have hsqrt2 : Real.sqrt ((P.m20 / sF) ^ 2 + (-(P.m21 / sF)) ^ 2) = 1 := by
        have harg : (P.m20 / sF) ^ 2 + (-(P.m21 / sF)) ^ 2 = 1 := by
          field_simp
          linear_combination -hF2 + hwe
        rw [harg, Real.sqrt_one]
      have hC2 : Real.cos (atan2 (-(P.m21 / sF)) (P.m20 / sF)) = P.m20 / sF := by
        rw [cos_atan2 _ _ hr2args, hsqrt2, div_one]
      have hS2 : Real.sin (atan2 (-(P.m21 / sF)) (P.m20 / sF)) = -(P.m21 / sF) := by
        rw [sin_atan2 _ _ hr2args, hsqrt2, div_one]
      rw [hC2, hS2]
      refine ⟨?_, ?_, ?_, ?_, ?_, ?_, ?_, ?_, ?_⟩
      · field_simp
        linear_combination (-sF ^ 2 * P.m02) * hP.co02 + sF ^ 2 * P.m12 * hP.cc20c +
          (-sF ^ 2 * P.m00) * hF2
      · field_simp
        linear_combination (-sF ^ 2 * P.m02) * hP.co12 + (-sF ^ 2 * P.m12) * hP.cc12c +
          (-sF ^ 2 * P.m01) * hF2
      · field_simp
      · field_simp
        linear_combination (-sF ^ 2 * P.m12) * hP.co02 + (-sF ^ 2 * P.m02) * hP.cc20c +
          (-sF ^ 2 * P.m10) * hF2
      · field_simp
        linear_combination (-sF ^ 2 * P.m12) * hP.co12 + sF ^ 2 * P.m02 * hP.cc12c +
          (-sF ^ 2 * P.m11) * hF2
      · field_simp
      · field_simp
      · field_simp
      · ring
    · simp only [if_neg hsh]
      rw [hcos0, hsin0, hC1, hS1]
      have hXeq : P.m02 / sF * P.m10 - P.m12 / sF * P.m00 = P.m21 / sF := by
        field_simp
        linear_combination hP.cc20c
      have hYeq : P.m02 / sF * P.m11 - P.m12 / sF * P.m01 = -(P.m20 / sF) := by
        field_simp
        linear_combination -hP.cc12c
      rw [hXeq, hYeq]
      have hr2args : -(P.m20 / sF) ≠ 0 ∨ P.m21 / sF ≠ 0 := by
        rcases hr2ne 1 (by norm_num) with h' | h'
        · exact Or.inl (by simpa using h')
        · exact Or.inr (by simpa using h')
      have hsqrt2 : Real.sqrt ((-(P.m20 / sF)) ^ 2 + (P.m21 / sF) ^ 2) = 1 := by
        have harg : (-(P.m20 / sF)) ^ 2 + (P.m21 / sF) ^ 2 = 1 := by
          field_simp
          linear_combination -hF2 + hwe
        rw [harg, Real.sqrt_one]
      have hC2 : Real.cos (atan2 (P.m21 / sF) (-(P.m20 / sF))) = -(P.m20 / sF) := by
        rw [cos_atan2 _ _ hr2args, hsqrt2, div_one]
      have hS2 : Real.sin (atan2 (P.m21 / sF) (-(P.m20 / sF))) = P.m21 / sF := by
        rw [sin_atan2 _ _ hr2args, hsqrt2, div_one]
      rw [hC2, hS2]
      refine ⟨?_, ?_, ?_, ?_, ?_, ?_, ?_, ?_, ?_⟩
      · field_simp
        linear_combination (-sF ^ 2 * P.m02) * hP.co02 + sF ^ 2 * P.m12 * hP.cc20c +
          (-sF ^ 2 * P.m00) * hF2
      · field_simp
        linear_combination (-sF ^ 2 * P.m02) * hP.co12 + (-sF ^ 2 * P.m12) * hP.cc12c +
          (-sF ^ 2 * P.m01) * hF2
      · field_simp
      · field_simp
        linear_combination (-sF ^ 2 * P.m12) * hP.co02 + (-sF ^ 2 * P.m02) * hP.cc20c +
          (-sF ^ 2 * P.m10) * hF2
      · field_simp
        linear_combination (-sF ^ 2 * P.m12) * hP.co12 + sF ^ 2 * P.m02 * hP.cc12c +
          (-sF ^ 2 * P.m11) * hF2
      · field_simp
      · field_simp
      · field_simp
      · ring

/-- Core reconstruction theorem: for a rotation matrix M and any valid axis
triple, composing the basis rotations by the angles Eigen's eulerAngles
extracts reproduces M exactly. -/
theorem eulerAngles_recompose (M : M3) (hM : IsRot M) (a0 a1 a2 : Nat)
    (ha0 : a0 < 3) (ha1 : a1 < 3) (ha2 : a2 < 3) (h01 : a0 ≠ a1) (h12 : a1 ≠ a2) :
    mulM3 (mulM3 (basisRotMat a0 (eulerAnglesM M a0 a1 a2).1)
        (basisRotMat a1 (eulerAnglesM M a0 a1 a2).2.1))
      (basisRotMat a2 (eulerAnglesM M a0 a1 a2).2.2) = M := by
  interval_cases a0 <;> interval_cases a1 <;> interval_cases a2
  · exact absurd rfl h01
  · exact absurd rfl h01
  · exact absurd rfl h01
  · -- (0, 1, 0): proper Euler, even class
    have h := shapeC M hM
    simp only [xyxEntries] at h
    obtain ⟨e1, e2, e3, e4, e5, e6, e7, e8, e9⟩ := h
    rw [show eulerAnglesM M 0 1 0 = eulerCoreProper false M.m00 M.m01 M.m02 M.m10
        M.m11 M.m12 M.m20 M.m21 M.m22 from rfl]
    ext <;> simp only [mulM3, basisRotMat]
    · linear_combination e1
    · linear_combination e2
    · linear_combination e3
    · linear_combination e4
    · linear_combination e5
    · linear_combination e6
    · linear_combination e7
    · linear_combination e8
    · linear_combination e9
  · exact absurd rfl h12
  · -- (0, 1, 2): Tait-Bryan, even class
    have h := shapeA M hM
    simp only [xyzEntries] at h
    obtain ⟨e1, e2, e3, e4, e5, e6, e7, e8, e9⟩ := h
    rw [show eulerAnglesM M 0 1 2 = eulerCoreTB false M.m00 M.m01 M.m02 M.m10
        M.m11 M.m12 M.m20 M.m21 M.m22 from rfl]
    ext <;> simp only [mulM3, basisRotMat]
    · linear_combination e1
    · linear_combination e2
    · linear_combination e3
    · linear_combination e4
    · linear_combination e5
    · linear_combination e6
    · linear_combination e7
    · linear_combination e8
    · linear_combination e9
  · -- (0, 2, 0): proper Euler, odd class, cycled once
    have h := shapeD (cycleM M) (isRot_cycleM hM)
    simp only [cycleM, zyzEntries] at h
    obtain ⟨e1, e2, e3, e4, e5, e6, e7, e8, e9⟩ := h
    rw [show eulerAnglesM M 0 2 0 = eulerCoreProper true M.m00 M.m02 M.m01 M.m20
        M.m22 M.m21 M.m10 M.m12 M.m11 from rfl]
    ext <;> simp only [mulM3, basisRotMat]
    · linear_combination e9
    · linear_combination e7
    · linear_combination e8
    · linear_combination e3
    · linear_combination e1
    · linear_combination e2
    · linear_combination e6
    · linear_combination e4
    · linear_combination e5
  · -- (0, 2, 1): Tait-Bryan, odd class, cycled once
    have h := shapeB (cycleM M) (isRot_cycleM hM)
    simp only [cycleM, zyxEntries] at h
    obtain ⟨e1, e2, e3, e4, e5, e6, e7, e8, e9⟩ := h
    rw [show eulerAnglesM M 0 2 1 = eulerCoreTB true M.m00 M.m02 M.m01 M.m20
        M.m22 M.m21 M.m10 M.m12 M.m11 from rfl]
    ext <;> simp only [mulM3, basisRotMat]
    · linear_combination e9
    · linear_combination e7
    · linear_combination e8
    · linear_combination e3
    · linear_combination e1
    · linear_combination e2
    · linear_combination e6
    · linear_combination e4
    · linear_combination e5
  · exact absurd rfl h12
  · exact absurd rfl h12
  · -- (1, 0, 1): proper Euler, odd class, cycled twice
    have h := shapeD (cycleM (cycleM M)) (isRot_cycleM (isRot_cycleM hM))
    simp only [cycleM, zyzEntries] at h
    obtain ⟨e1, e2, e3, e4, e5, e6, e7, e8, e9⟩ := h
    rw [show eulerAnglesM M 1 0 1 = eulerCoreProper true M.m11 M.m10 M.m12 M.m01
        M.m00 M.m02 M.m21 M.m20 M.m22 from rfl]
    ext <;> simp only [mulM3, basisRotMat]
    · linear_combination e5
    · linear_combination e6
    · linear_combination e4
    · linear_combination e8
    · linear_combination e9
    · linear_combination e7
    · linear_combination e2
    · linear_combination e3
    · linear_combination e1
  · -- (1, 0, 2): Tait-Bryan, odd class, cycled twice
    have h := shapeB (cycleM (cycleM M)) (isRot_cycleM (isRot_cycleM hM))
    simp only [cycleM, zyxEntries] at h
    obtain ⟨e1, e2, e3, e4, e5, e6, e7, e8, e9⟩ := h
    rw [show eulerAnglesM M 1 0 2 = eulerCoreTB true M.m11 M.m10 M.m12 M.m01
        M.m00 M.m02 M.m21 M.m20 M.m22 from rfl]
    ext <;> simp only [mulM3, basisRotMat]
    · linear_combination e5
    · linear_combination e6
    · linear_combination e4
    · linear_combination e8
    · linear_combination e9
    · linear_combination e7
    · linear_combination e2
    · linear_combination e3
    · linear_combination e1
  · exact absurd rfl h01
  · exact absurd rfl h01
  · exact absurd rfl h01
  · -- (1, 2, 0): Tait-Bryan, even class, cycled once
    have h := shapeA (cycleM M) (isRot_cycleM hM)
    simp only [cycleM, xyzEntries] at h
    obtain ⟨e1, e2, e3, e4, e5, e6, e7, e8, e9⟩ := h
    rw [show eulerAnglesM M 1 2 0 = eulerCoreTB false M.m11 M.m12 M.m10 M.m21
        M.m22 M.m20 M.m01 M.m02 M.m00 from rfl]
    ext <;> simp only [mulM3, basisRotMat]
    · linear_combination e9
    · linear_combination e7
    · linear_combination e8
    · linear_combination e3
    · linear_combination e1
    · linear_combination e2
    · linear_combination e6
    · linear_combination e4
    · linear_combination e5
  · -- (1, 2, 1): proper Euler, even class, cycled once
    have h := shapeC (cycleM M) (isRot_cycleM hM)
    simp only [cycleM, xyxEntries] at h
    obtain ⟨e1, e2, e3, e4, e5, e6, e7, e8, e9⟩ := h
    rw [show eulerAnglesM M 1 2 1 = eulerCoreProper false M.m11 M.m12 M.m10 M.m21
        M.m22 M.m20 M.m01 M.m02 M.m00 from rfl]
    ext <;> simp only [mulM3, basisRotMat]
    · linear_combination e9
    · linear_combination e7
    · linear_combination e8
    · linear_combination e3
    · linear_combination e1
    · linear_combination e2
    · linear_combination e6
    · linear_combination e4
    · linear_combination e5
  · exact absurd rfl h12
  · exact absurd rfl h12
  · -- (2, 0, 1): Tait-Bryan, even class, cycled twice
    have h := shapeA (cycleM (cycleM M)) (isRot_cycleM (isRot_cycleM hM))
    simp only [cycleM, xyzEntries] at h
    obtain ⟨e1, e2, e3, e4, e5, e6, e7, e8, e9⟩ := h
    rw [show eulerAnglesM M 2 0 1 = eulerCoreTB false M.m22 M.m20 M.m21 M.m02
        M.m00 M.m01 M.m12 M.m10 M.m11 from rfl]
    ext <;> simp only [mulM3, basisRotMat]
    · linear_combination e5
    · linear_combination e6
    · linear_combination e4
    · linear_combination e8
    · linear_combination e9
    · linear_combination e7
    · linear_combination e2
    · linear_combination e3
    · linear_combination e1
  · -- (2, 0, 2): proper Euler, even class, cycled twice
    have h := shapeC (cycleM (cycleM M)) (isRot_cycleM (isRot_cycleM hM))
    simp only [cycleM, xyxEntries] at h
    obtain ⟨e1, e2, e3, e4, e5, e6, e7, e8, e9⟩ := h
    rw [show eulerAnglesM M 2 0 2 = eulerCoreProper false M.m22 M.m20 M.m21 M.m02
        M.m00 M.m01 M.m12 M.m10 M.m11 from rfl]
    ext <;> simp only [mulM3, basisRotMat]
    · linear_combination e5
    · linear_combination e6
    · linear_combination e4
    · linear_combination e8
    · linear_combination e9
    · linear_combination e7
    · linear_combination e2
    · linear_combination e3
    · linear_combination e1
  · -- (2, 1, 0): Tait-Bryan, odd class, canonical
    have h := shapeB M hM
    simp only [zyxEntries] at h
    obtain ⟨e1, e2, e3, e4, e5, e6, e7, e8, e9⟩ := h
    rw [show eulerAnglesM M 2 1 0 = eulerCoreTB true M.m22 M.m21 M.m20 M.m12
        M.m11 M.m10 M.m02 M.m01 M.m00 from rfl]
    ext <;> simp only [mulM3, basisRotMat]
    · linear_combination e1
    · linear_combination e2
    · linear_combination e3
    · linear_combination e4
    · linear_combination e5
    · linear_combination e6
    · linear_combination e7
    · linear_combination e8
    · linear_combination e9
  · exact absurd rfl h12
  · -- (2, 1, 2): proper Euler, odd class, canonical
    have h := shapeD M hM
    simp only [zyzEntries] at h
    obtain ⟨e1, e2, e3, e4, e5, e6, e7, e8, e9⟩ := h
    rw [show eulerAnglesM M 2 1 2 = eulerCoreProper true M.m22 M.m21 M.m20 M.m12
        M.m11 M.m10 M.m02 M.m01 M.m00 from rfl]
    ext <;> simp only [mulM3, basisRotMat]
    · linear_combination e1
    · linear_combination e2
    · linear_combination e3
    · linear_combination e4
    · linear_combination e5
    · linear_combination e6
    · linear_combination e7
    · linear_combination e8
    · linear_combination e9
  · exact absurd rfl h01
  · exact absurd rfl h01
  · exact absurd rfl h01

/-! ### Quaternion-level composition and decomposition

composeQuat is the quaternion built by EulerProperty::setEulerAngles
(lines 92-99): for the fixed frame the AngleAxis factors are multiplied in
reverse axis order, for the rotating frame in axis order.  decomposeAngles
is EulerProperty::updateAngles (lines 219-225): in the fixed case
eulerAngles is called with the reversed triple and the first and third
results are swapped. -/

noncomputable def composeQuat (fixed : Bool) (a0 a1 a2 : Nat)
    (e0 e1 e2 : ℝ) : Quat :=
  if fixed then
    qmul (qmul (axisAngleQuat a2 e2) (axisAngleQuat a1 e1)) (axisAngleQuat a0 e0)
  else
    qmul (qmul (axisAngleQuat a0 e0) (axisAngleQuat a1 e1)) (axisAngleQuat a2 e2)

noncomputable def decomposeAngles (q : Quat) (fixed : Bool) (a0 a1 a2 : Nat) :
    ℝ × ℝ × ℝ :=
  if fixed then
    let e := eulerAnglesM (quatToMatrix q) a2 a1 a0
    (e.2.2, e.2.1, e.1)
  else eulerAnglesM (quatToMatrix q) a0 a1 a2

theorem qnormSq_composeQuat (fixed : Bool) (a0 a1 a2 : Nat)
    (h0 : a0 < 3) (h1 : a1 < 3) (h2 : a2 < 3) (e0 e1 e2 : ℝ) :
    qnormSq (composeQuat fixed a0 a1 a2 e0 e1 e2) = 1 := by
  cases fixed <;>
    simp only [composeQuat, if_true, if_false, Bool.false_eq_true, qnormSq_qmul,
      qnormSq_axisAngleQuat a0 h0, qnormSq_axisAngleQuat a1 h1,
      qnormSq_axisAngleQuat a2 h2, one_mul]

theorem quatToMatrix_triple (a b c : Nat) (ha : a < 3) (hb : b < 3) (hc : c < 3)
    (ta tb tc : ℝ) :
    quatToMatrix (qmul (qmul (axisAngleQuat a ta) (axisAngleQuat b tb))
        (axisAngleQuat c tc)) =
      mulM3 (mulM3 (basisRotMat a ta) (basisRotMat b tb)) (basisRotMat c tc) := by
  rw [quatToMatrix_qmul _ _
        (by rw [qnormSq_qmul, qnormSq_axisAngleQuat a ha ta, qnormSq_axisAngleQuat b hb tb,
          one_mul])
        (qnormSq_axisAngleQuat c hc tc),
      quatToMatrix_qmul _ _ (qnormSq_axisAngleQuat a ha ta) (qnormSq_axisAngleQuat b hb tb),
      quatToMatrix_axisAngleQuat a ha, quatToMatrix_axisAngleQuat b hb,
      quatToMatrix_axisAngleQuat c hc]

/-- The matrix of the recomposed quaternion is the original matrix: the
round trip through updateAngles and setEulerAngles preserves the rotation
exactly, in both frame conventions. -/
theorem quatToMatrix_composeQuat_decomposeAngles (q : Quat) (hq : qnormSq q = 1)
    (fixed : Bool) (a0 a1 a2 : Nat) (h0 : a0 < 3) (h1 : a1 < 3) (h2 : a2 < 3)
    (h01 : a0 ≠ a1) (h12 : a1 ≠ a2) :
    quatToMatrix (composeQuat fixed a0 a1 a2 (decomposeAngles q fixed a0 a1 a2).1
      (decomposeAngles q fixed a0 a1 a2).2.1 (decomposeAngles q fixed a0 a1 a2).2.2) =
      quatToMatrix q := by
  have hM : IsRot (quatToMatrix q) := isRot_quatToMatrix q hq
  cases fixed
  · simp only [composeQuat, decomposeAngles, Bool.false_eq_true, if_false]
    rw [quatToMatrix_triple a0 a1 a2 h0 h1 h2]
    exact eulerAngles_recompose (quatToMatrix q) hM a0 a1 a2 h0 h1 h2 h01 h12
  · simp only [composeQuat, decomposeAngles, if_true]
    rw [quatToMatrix_triple a2 a1 a0 h2 h1 h0]
    exact eulerAngles_recompose (quatToMatrix q) hM a2 a1 a0 h2 h1 h0
      (Ne.symm h12) (Ne.symm h01)

/-- Round trip at the quaternion level: decomposing a unit quaternion into
Euler angles and recomposing yields the original quaternion or its
antipode. -/
theorem composeQuat_decomposeAngles (q : Quat) (hq : qnormSq q = 1)
    (fixed : Bool) (a0 a1 a2 : Nat) (h0 : a0 < 3) (h1 : a1 < 3) (h2 : a2 < 3)
    (h01 : a0 ≠ a1) (h12 : a1 ≠ a2) :
    composeQuat fixed a0 a1 a2 (decomposeAngles q fixed a0 a1 a2).1
        (decomposeAngles q fixed a0 a1 a2).2.1
        (decomposeAngles q fixed a0 a1 a2).2.2 = q ∨
      composeQuat fixed a0 a1 a2 (decomposeAngles q fixed a0 a1 a2).1
        (decomposeAngles q fixed a0 a1 a2).2.1
        (decomposeAngles q fixed a0 a1 a2).2.2 = qneg q := by
  exact quat_eq_or_qneg_of_matrix_eq _ q
    (qnormSq_composeQuat fixed a0 a1 a2 h0 h1 h2 _ _ _) hq
    (quatToMatrix_composeQuat_decomposeAngles q hq fixed a0 a1 a2 h0 h1 h2 h01 h12)

/-! ### The angles package -/

/-- angles::from_degrees. -/
noncomputable def from_degrees (d : ℝ) : ℝ := d * Real.pi / 180

/-- angles::to_degrees. -/
noncomputable def to_degrees (r : ℝ) : ℝ := r * 180 / Real.pi

/-! ### The EulerProperty state machine

State fields of the C++ class (euler_property.h): the stored quaternion,
the three child FloatProperty values (in degrees, euler_[i]), the axes
specification string, the frame flag, the three axis indices, and the
reentrancy-suppression flag.  The display string value_ and the child
display names are presentation-only and not modelled.  Each operation
returns its successor state together with the list of Qt signals the
EulerProperty emits (child-property signals are not listed: while the
suppression flag is set their connected slots return immediately, so they
have no further effect). -/

structure EulerState where
  quaternion_ : Quat
  euler_0 : ℝ
  euler_1 : ℝ
  euler_2 : ℝ
  axes_string_ : List Char
  fixed_ : Bool
  axes_0 : Nat
  axes_1 : Nat
  axes_2 : Nat
  ignore_child_updates_ : Bool

/-- The Qt signals of EulerProperty. -/
inductive Ev where
  | aboutToChange : Ev
  | quaternionChanged : Quat → Ev
  | changed : Ev

open Classical in
/-- EulerProperty::setEulerAngles(euler, normalize) with normalize = false
(lines 102-117): guarded child updates, aboutToChange, conditional
quaternion store with quaternionChanged, changed. -/
noncomputable def setEulerAnglesNoNorm (s : EulerState) (e0 e1 e2 : ℝ) :
    EulerState × List Ev :=
  let q := composeQuat s.fixed_ s.axes_0 s.axes_1 s.axes_2 e0 e1 e2
  let s1 := if s.ignore_child_updates_ then s else
    { s with euler_0 := to_degrees e0, euler_1 := to_degrees e1,
             euler_2 := to_degrees e2 }
  -- the comparison reads quaternion_, which the child updates leave untouched
  if isApproxQ s.quaternion_ q then
    (s1, [Ev.aboutToChange, Ev.changed])
  else
    ({ s1 with quaternion_ := q },
     [Ev.aboutToChange, Ev.quaternionChanged q, Ev.changed])

/-- EulerProperty::updateAngles (lines 217-226). -/
noncomputable def updateAnglesE (s : EulerState) : EulerState × List Ev :=
  let e := decomposeAngles s.quaternion_ s.fixed_ s.axes_0 s.axes_1 s.axes_2
  setEulerAnglesNoNorm s e.1 e.2.1 e.2.2

open Classical in
/-- EulerProperty::setQuaternion (lines 81-87). -/
noncomputable def setQuaternionE (s : EulerState) (q : Quat) : EulerState × List Ev :=
  if isApproxQ s.quaternion_ q then (s, [])
  else updateAnglesE { s with quaternion_ := q }

/-- EulerProperty::setEulerAngles(euler, normalize), both branches
(lines 89-118). -/
noncomputable def setEulerAnglesE (s : EulerState) (e0 e1 e2 : ℝ)
    (normalize : Bool) : EulerState × List Ev :=
  if normalize then
    setQuaternionE s (composeQuat s.fixed_ s.axes_0 s.axes_1 s.axes_2 e0 e1 e2)
  else setEulerAnglesNoNorm s e0 e1 e2

/-- EulerProperty::setEulerAxes (lines 126-170): early return on an equal
spec string, parse (an error returned as the thrown exception with the
state untouched, since all stores happen after validation), then apply the
parsed axes and recompute the angles. -/
noncomputable def setEulerAxesE (s : EulerState) (spec : List Char) :
    EulerState × List Ev × Option AxErr :=
  if s.axes_string_ = spec then (s, [], none)
  else
    match parseAxes spec with
    | .error e => (s, [], some e)
    | .ok (fx, a0, a1, a2) =>
      let r := updateAnglesE { s with axes_string_ := spec, fixed_ := fx,
                                      axes_0 := a0, axes_1 := a1, axes_2 := a2 }
      (r.1, r.2, none)

/-- EulerProperty::updateFromChildren (lines 199-209). -/
noncomputable def updateFromChildrenE (s : EulerState) : EulerState × List Ev :=
  if s.ignore_child_updates_ then (s, [])
  else
    let r := setEulerAnglesNoNorm { s with ignore_child_updates_ := true }
      (from_degrees s.euler_0) (from_degrees s.euler_1) (from_degrees s.euler_2)
    ({ r.1 with ignore_child_updates_ := false }, r.2)

/-! ### The free-text value interface (EulerProperty::setValue)

Strings are lists of characters.  The QRegExp "\\s*([a-z]+)\\s*:?" is
modelled by its leftmost match: the first position from which a (possibly
empty) whitespace run is followed by at least one lowercase letter; the
greedy match then takes the letter run, trailing whitespace, and an
optional colon.  Whitespace is the ASCII class; numbers are the C-locale
decimal literals QString::toDouble accepts, with optional sign, fraction
and exponent part. -/

def isSpaceC (c : Char) : Bool :=
  decide (c = ' ' ∨ c = '\t' ∨ c = '\n' ∨ c = '\r' ∨ c.toNat = 11 ∨ c.toNat = 12)

def isLowerAZ (c : Char) : Bool := decide ('a' ≤ c ∧ c ≤ 'z')

def isDigitC (c : Char) : Bool := decide ('0' ≤ c ∧ c ≤ '9')

/-- QRegExp("\\s*([a-z]+)\\s*:?").indexIn: none when there is no match
(no lowercase letter in the string); otherwise the matched length
(measured from the match start, as QRegExp::matchedLength) and the
captured letter run. -/
def axesSpecIndexIn : List Char → Option (Nat × List Char)
  | [] => none
  | c :: rest =>
    let s := c :: rest
    let w := (s.takeWhile isSpaceC).length
    let after1 := s.drop w
    let cap := after1.takeWhile isLowerAZ
    if cap = [] then axesSpecIndexIn rest
    else
      let after2 := after1.drop cap.length
      let w2 := (after2.takeWhile isSpaceC).length
      let after3 := after2.drop w2
      let colon : Nat := match after3 with | ':' :: _ => 1 | _ => 0
      some (w + cap.length + w2 + colon, cap)

/-- QString::split(';'), keeping empty parts. -/
def splitSemi : List Char → List (List Char)
  | [] => [[]]
  | c :: rest =>
    match splitSemi rest with
    | [] => [[]]
    | p :: ps => if c = ';' then [] :: p :: ps else (c :: p) :: ps

/-- Value of a digit string. -/
def digitsVal (l : List Char) : ℚ :=
  l.foldl (fun a c => a * 10 + ((c.toNat : ℚ) - 48)) 0

/-- Digit-string value as a natural number (for the exponent part). -/
def digitsNat (l : List Char) : Nat :=
  l.foldl (fun a c => a * 10 + (c.toNat - 48)) 0

/-- QString::toDouble on one token: the C-locale decimal literals, with
optional sign, optional fraction and optional exponent part (such as
1234.56e-02), surrounding whitespace trimmed; none models the ok = false
out-parameter.  Non-finite forms (inf, nan) are outside the modelled
fragment. -/
def toDouble (s : List Char) : Option ℚ :=
  let t := ((s.dropWhile isSpaceC).reverse.dropWhile isSpaceC).reverse
  let sr : ℚ × List Char :=
    match t with
    | '-' :: r => (-1, r)
    | '+' :: r => (1, r)
    | _ => (1, t)
  let ip := sr.2.takeWhile isDigitC
  let mantRest : Option (ℚ × List Char) :=
    match sr.2.dropWhile isDigitC with
    | '.' :: fr =>
      let fp := fr.takeWhile isDigitC
      if ip = [] ∧ fp = [] then none
      else some (digitsVal ip + digitsVal fp / 10 ^ fp.length, fr.dropWhile isDigitC)
    | r => if ip = [] then none else some (digitsVal ip, r)
  match mantRest with
  | none => none
  | some (m, r) =>
    match r with
    | [] => some (sr.1 * m)
    | c :: er =>
      if c = 'e' ∨ c = 'E' then
        let se : Int × List Char :=
          match er with
          | '-' :: r2 => (-1, r2)
          | '+' :: r2 => (1, r2)
          | _ => (1, er)
        let ed := se.2.takeWhile isDigitC
        if ed = [] ∨ se.2.dropWhile isDigitC ≠ [] then none
        else some (sr.1 * m * (10 : ℚ) ^ (se.1 * (digitsNat ed : Int)))
      else none

example : (toDouble [' ', '9', '0']).isSome = true := by decide
example : (toDouble ['-', '1', '.', '5']).isSome = true := by decide
example : (toDouble ['1', '2', '3', '4', '.', '5', '6', 'e', '-', '0', '2']).isSome =
    true := by decide
example : (toDouble ['1', 'E', '5']).isSome = true := by decide
example : toDouble ['1', 'e'] = none := by decide
example : toDouble ['x', '1'] = none := by decide
example : toDouble [] = none := by decide

open Classical in
/-- EulerProperty::setValue (lines 172-197).  The result's third component
is the returned bool: some false on each explicit `return false`, and none
for the accepted path, which reaches the end of the non-void function
without a return statement, so the C++ return value is unspecified. -/
noncomputable def setValueE (s : EulerState) (input : List Char) :
    EulerState × List Ev × Option Bool :=
  let afterAxes : Option (EulerState × List Ev × List Char) :=
    match axesSpecIndexIn input with
    | some (ml, cap) =>
      match setEulerAxesE s cap with
      | (_, _, some _) => none
      | (s1, evs1, none) => some (s1, evs1, input.drop ml)
    | none => some (s, [], input)
  match afterAxes with
  | none => (s, [], some false)
  | some (s1, evs1, rest) =>
    match splitSemi rest with
    | t0 :: t1 :: t2 :: _ =>
      match toDouble t0, toDouble t1, toDouble t2 with
      | some v0, some v1, some v2 =>
        let r := setEulerAnglesNoNorm s1 (from_degrees (v0 : ℝ))
          (from_degrees (v1 : ℝ)) (from_degrees (v2 : ℝ))
        (r.1, evs1 ++ r.2, none)
      | _, _, _ => (s1, evs1, some false)
    | _ => (s1, evs1, some false)

/-! ### Persistence (EulerProperty::load) -/

/-- The rviz Config fragment load reads: mapGetString / mapGetFloat return
false on a missing or unconvertible key, modelled as none. -/
structure Config where
  axes : Option (List Char)
  e1 : Option ℝ
  e2 : Option ℝ
  e3 : Option ℝ

/-- EulerProperty::load (lines 238-254).  A parse error thrown by
setEulerAxes propagates out of load uncaught. -/
noncomputable def loadE (s : EulerState) (c : Config) :
    EulerState × List Ev × Option AxErr :=
  match c.axes, c.e1, c.e2, c.e3 with
  | some ax, some v1, some v2, some v3 =>
    match setEulerAxesE s ax with
    | (s1, evs1, some e) => (s1, evs1, some e)
    | (s1, evs1, none) =>
      let r := setEulerAnglesE s1 (from_degrees v1) (from_degrees v2)
        (from_degrees v3) true
      (r.1, evs1 ++ r.2, none)
  | _, _, _, _ => (s, [], none)

/-! ### The RotationProperty state machine (rotation_property.cpp)

Only the parts the claims address are modelled: the child EulerProperty,
the stored quaternion of the child QuaternionProperty, the two flags.  The
summary string value_ is presentation-only.  During
RotationProperty::setQuaternion the child signal slots updateFromEuler and
updateFromQuaternion run with ignore_child_updates_ set, so their only
effect is copying intermediate values into quaternion_property_, which
line 72 then overwrites with q; the event list holds the signals emitted
by the child EulerProperty (RotationProperty itself emits none on this
path because updateString is suppressed). -/

structure RotationState where
  euler : EulerState
  quaternion_property_ : Quat
  ignore_child_updates_ : Bool
  show_euler_string_ : Bool

open Classical in
/-- RotationProperty::setQuaternion (lines 65-75). -/
noncomputable def setQuaternionR (s : RotationState) (q : Quat) :
    RotationState × List Ev :=
  if isApproxQ s.euler.quaternion_ q then (s, [])
  else
    let r := setQuaternionE s.euler q
    ({ euler := r.1, quaternion_property_ := q,
       ignore_child_updates_ := false,
       show_euler_string_ := s.show_euler_string_ }, r.2)

/-- Whether an event list contains a quaternionChanged emission. -/
def hasQuatChanged (evs : List Ev) : Prop := ∃ p, Ev.quaternionChanged p ∈ evs

/-! ### Concrete evaluations

Closed-form values of the decomposition and recomposition on the specific
rotations the counterexample traces use. -/

theorem eulerAnglesM_id_210 :
    eulerAnglesM ⟨1, 0, 0, 0, 1, 0, 0, 0, 1⟩ 2 1 0 = (0, 0, 0) := by
  have h1 : atan2 (0 : ℝ) 1 = 0 := atan2_zero_of_pos one_pos
  rw [show eulerAnglesM ⟨1, 0, 0, 0, 1, 0, 0, 0, 1⟩ 2 1 0 =
      eulerCoreTB true 1 0 0 0 1 0 0 0 1 from rfl]
  simp only [eulerCoreTB]
  norm_num [h1, Real.sqrt_one, Real.sin_zero, Real.cos_zero]

theorem eulerAnglesM_zdiag_210 :
    eulerAnglesM ⟨-1, 0, 0, 0, -1, 0, 0, 0, 1⟩ 2 1 0 = (Real.pi, 0, 0) := by
  have h1 : atan2 (0 : ℝ) (-1) = Real.pi := atan2_zero_of_neg (by norm_num)
  have h2 : atan2 (0 : ℝ) 1 = 0 := atan2_zero_of_pos one_pos
  have hpi : ¬ (Real.pi < 0) := not_lt.mpr Real.pi_pos.le
  rw [show eulerAnglesM ⟨-1, 0, 0, 0, -1, 0, 0, 0, 1⟩ 2 1 0 =
      eulerCoreTB true 1 0 0 (0 : ℝ) (-1) 0 0 0 (-1) from rfl]
  simp only [eulerCoreTB]
  norm_num [h1, h2, hpi, Real.sqrt_one, Real.sin_pi, Real.cos_pi]

theorem eulerAnglesM_rx90_210 :
    eulerAnglesM ⟨1, 0, 0, 0, 0, -1, 0, 1, 0⟩ 2 1 0 = (0, 0, Real.pi / 2) := by
  have h2 : atan2 (0 : ℝ) 1 = 0 := atan2_zero_of_pos one_pos
  have h3 : atan2 (1 : ℝ) 0 = Real.pi / 2 := atan2_pos_zero one_pos
  rw [show eulerAnglesM ⟨1, 0, 0, 0, 0, -1, 0, 1, 0⟩ 2 1 0 =
      eulerCoreTB true 0 1 0 (-1 : ℝ) 0 0 0 0 1 from rfl]
  simp only [eulerCoreTB]
  norm_num [h2, h3, Real.sqrt_one, Real.sin_zero, Real.cos_zero]

theorem eulerAnglesM_zdiag_012 :
    eulerAnglesM ⟨-1, 0, 0, 0, -1, 0, 0, 0, 1⟩ 0 1 2 = (0, 0, -Real.pi) := by
  have h1 : atan2 (0 : ℝ) (-1) = Real.pi := atan2_zero_of_neg (by norm_num)
  have h2 : atan2 (0 : ℝ) 1 = 0 := atan2_zero_of_pos one_pos
  rw [show eulerAnglesM ⟨-1, 0, 0, 0, -1, 0, 0, 0, 1⟩ 0 1 2 =
      eulerCoreTB false (-1) 0 0 (0 : ℝ) (-1) 0 0 0 1 from rfl]
  simp only [eulerCoreTB]
  norm_num [h1, h2, Real.sqrt_one, Real.sin_zero, Real.cos_zero]

theorem quatToMatrix_qone : quatToMatrix qone = ⟨1, 0, 0, 0, 1, 0, 0, 0, 1⟩ := by
  ext <;> simp only [quatToMatrix, qone] <;> norm_num

theorem quatToMatrix_negone :
    quatToMatrix ⟨-1, 0, 0, 0⟩ = ⟨1, 0, 0, 0, 1, 0, 0, 0, 1⟩ := by
  ext <;> simp only [quatToMatrix] <;> norm_num

theorem quatToMatrix_z1 :
    quatToMatrix ⟨0, 0, 0, 1⟩ = ⟨-1, 0, 0, 0, -1, 0, 0, 0, 1⟩ := by
  ext <;> simp only [quatToMatrix] <;> norm_num

theorem quatToMatrix_zm1 :
    quatToMatrix ⟨0, 0, 0, -1⟩ = ⟨-1, 0, 0, 0, -1, 0, 0, 0, 1⟩ := by
  ext <;> simp only [quatToMatrix] <;> norm_num

theorem quatToMatrix_rx90 :
    quatToMatrix ⟨Real.sqrt 2 / 2, Real.sqrt 2 / 2, 0, 0⟩ =
      ⟨1, 0, 0, 0, 0, -1, 0, 1, 0⟩ := by
  have h2 : Real.sqrt 2 ^ 2 = 2 := Real.sq_sqrt (by norm_num)
  ext <;> simp only [quatToMatrix] <;>
    first
    | ring1
    | linear_combination (-(1 / 2) : ℝ) * h2
    | linear_combination ((1 / 2) : ℝ) * h2

theorem decomposeAngles_qone_fixed : decomposeAngles qone true 0 1 2 = (0, 0, 0) := by
  simp [decomposeAngles, quatToMatrix_qone, eulerAnglesM_id_210]

theorem decomposeAngles_negone_fixed :
    decomposeAngles ⟨-1, 0, 0, 0⟩ true 0 1 2 = (0, 0, 0) := by
  simp [decomposeAngles, quatToMatrix_negone, eulerAnglesM_id_210]

theorem decomposeAngles_zm1_fixed :
    decomposeAngles ⟨0, 0, 0, -1⟩ true 0 1 2 = (0, 0, Real.pi) := by
  simp [decomposeAngles, quatToMatrix_zm1, eulerAnglesM_zdiag_210]

theorem decomposeAngles_z1_rot :
    decomposeAngles ⟨0, 0, 0, 1⟩ false 0 1 2 = (0, 0, -Real.pi) := by
  simp [decomposeAngles, quatToMatrix_z1, eulerAnglesM_zdiag_012]

theorem decomposeAngles_rx90_fixed :
    decomposeAngles ⟨Real.sqrt 2 / 2, Real.sqrt 2 / 2, 0, 0⟩ true 0 1 2 =
      (Real.pi / 2, 0, 0) := by
  simp [decomposeAngles, quatToMatrix_rx90, eulerAnglesM_rx90_210]

theorem decomposeAngles_qone_rot210 : decomposeAngles qone false 2 1 0 = (0, 0, 0) := by
  simp [decomposeAngles, quatToMatrix_qone, eulerAnglesM_id_210]

theorem composeQuat_fixed_zero : composeQuat true 0 1 2 0 0 0 = qone := by
  ext <;>
    simp [composeQuat, qmul, axisAngleQuat, qone, zero_div, Real.cos_zero,
      Real.sin_zero]

theorem composeQuat_rot_zero : composeQuat false 2 1 0 0 0 0 = qone := by
  ext <;>
    simp [composeQuat, qmul, axisAngleQuat, qone, zero_div, Real.cos_zero,
      Real.sin_zero]

theorem composeQuat_fixed_zpi : composeQuat true 0 1 2 0 0 Real.pi = ⟨0, 0, 0, 1⟩ := by
  ext <;>
    simp [composeQuat, qmul, axisAngleQuat, zero_div, Real.cos_zero, Real.sin_zero,
      Real.cos_pi_div_two, Real.sin_pi_div_two]

theorem composeQuat_fixed_pi2 :
    composeQuat true 0 1 2 (Real.pi / 2) 0 0 =
      ⟨Real.sqrt 2 / 2, Real.sqrt 2 / 2, 0, 0⟩ := by
  have hc : Real.cos (Real.pi / 2 / 2) = Real.sqrt 2 / 2 := by
    rw [show Real.pi / 2 / 2 = Real.pi / 4 by ring, Real.cos_pi_div_four]
  have hs : Real.sin (Real.pi / 2 / 2) = Real.sqrt 2 / 2 := by
    rw [show Real.pi / 2 / 2 = Real.pi / 4 by ring, Real.sin_pi_div_four]
  ext <;>
    simp [composeQuat, qmul, axisAngleQuat, zero_div, Real.cos_zero, Real.sin_zero,
      hc, hs]

theorem composeQuat_rot_negpi :
    composeQuat false 0 1 2 0 0 (-Real.pi) = ⟨0, 0, 0, -1⟩ := by
  have hc : Real.cos (-Real.pi / 2) = 0 := by
    rw [show -Real.pi / 2 = -(Real.pi / 2) by ring, Real.cos_neg]
    exact Real.cos_pi_div_two
  have hs : Real.sin (-Real.pi / 2) = -1 := by
    rw [show -Real.pi / 2 = -(Real.pi / 2) by ring, Real.sin_neg,
      Real.sin_pi_div_two]
  ext <;>
    simp [composeQuat, qmul, axisAngleQuat, zero_div, Real.cos_zero, Real.sin_zero,
      hc, hs]

/-- Tolerance-parametrised version of the Eigen approximation test (1e-6 is
the tolerance named by the round-trip property of the specification). -/
noncomputable def isApproxQTol (tol : ℝ) (a b : Quat) : Prop :=
  qnormSq ⟨a.w - b.w, a.x - b.x, a.y - b.y, a.z - b.z⟩ ≤
    tol ^ 2 * min (qnormSq a) (qnormSq b)

theorem not_isApproxQ_of_big (a b : Quat) (ha : qnormSq a ≤ 1)
    (hd : 1 / 2 ≤ qnormSq ⟨a.w - b.w, a.x - b.x, a.y - b.y, a.z - b.z⟩) :
    ¬ isApproxQ a b := by
  intro h
  unfold isApproxQ at h
  have h1 : dummyPrec ^ 2 * min (qnormSq a) (qnormSq b) ≤ dummyPrec ^ 2 * qnormSq a :=
    mul_le_mul_of_nonneg_left (min_le_left _ _) (by positivity)
  have h2 : dummyPrec ^ 2 * qnormSq a ≤ dummyPrec ^ 2 * 1 :=
    mul_le_mul_of_nonneg_left ha (by positivity)
  have h3 : (1 : ℝ) / 2 ≤ dummyPrec ^ 2 * 1 := by linarith
  norm_num [dummyPrec] at h3

theorem not_approx_qone_zm1 : ¬ isApproxQ qone ⟨0, 0, 0, -1⟩ := by
  apply not_isApproxQ_of_big
  · norm_num [qnormSq, qone]
  · norm_num [qnormSq, qone]

theorem not_approx_z1_zm1 : ¬ isApproxQ ⟨0, 0, 0, 1⟩ ⟨0, 0, 0, -1⟩ := by
  apply not_isApproxQ_of_big
  · norm_num [qnormSq]
  · norm_num [qnormSq]

theorem not_approx_zm1_z1 : ¬ isApproxQ ⟨0, 0, 0, -1⟩ ⟨0, 0, 0, 1⟩ := by
  apply not_isApproxQ_of_big
  · norm_num [qnormSq]
  · norm_num [qnormSq]

theorem not_approx_z1_zm1' : ¬ isApproxQ (⟨0, 0, 0, 1⟩ : Quat) ⟨0, 0, 0, -1⟩ := by
  apply not_isApproxQ_of_big
  · norm_num [qnormSq]
  · norm_num [qnormSq]

theorem not_approx_qone_rx90 :
    ¬ isApproxQ qone ⟨Real.sqrt 2 / 2, Real.sqrt 2 / 2, 0, 0⟩ := by
  have h2 : Real.sqrt 2 ^ 2 = 2 := Real.sq_sqrt (by norm_num)
  have h15 : Real.sqrt 2 ≤ 3 / 2 := by nlinarith [Real.sqrt_nonneg 2]
  apply not_isApproxQ_of_big
  · norm_num [qnormSq, qone]
  · simp only [qnormSq, qone]
    nlinarith

theorem to_degrees_zero : to_degrees 0 = 0 := by simp [to_degrees]

theorem to_degrees_pi : to_degrees Real.pi = 180 := by
  rw [to_degrees]
  field_simp

theorem to_degrees_negpi : to_degrees (-Real.pi) = -180 := by
  rw [to_degrees]
  field_simp
  ring

theorem to_degrees_pi2 : to_degrees (Real.pi / 2) = 90 := by
  rw [to_degrees]
  rw [show Real.pi / 2 * 180 / Real.pi = Real.pi / Real.pi * 90 by ring]
  rw [div_self Real.pi_ne_zero]
  norm_num

/-! ### Structural facts about the state operations -/

theorem noNorm_events_approx (s : EulerState) (e0 e1 e2 : ℝ)
    (h : isApproxQ s.quaternion_ (composeQuat s.fixed_ s.axes_0 s.axes_1 s.axes_2 e0 e1 e2)) :
    (setEulerAnglesNoNorm s e0 e1 e2).2 = [Ev.aboutToChange, Ev.changed] := by
  simp only [setEulerAnglesNoNorm, if_pos h]

theorem noNorm_events_far (s : EulerState) (e0 e1 e2 : ℝ)
    (h : ¬ isApproxQ s.quaternion_ (composeQuat s.fixed_ s.axes_0 s.axes_1 s.axes_2 e0 e1 e2)) :
    (setEulerAnglesNoNorm s e0 e1 e2).2 =
      [Ev.aboutToChange,
       Ev.quaternionChanged (composeQuat s.fixed_ s.axes_0 s.axes_1 s.axes_2 e0 e1 e2),
       Ev.changed] := by
  simp only [setEulerAnglesNoNorm, if_neg h]

theorem noNorm_quat_approx (s : EulerState) (e0 e1 e2 : ℝ)
    (h : isApproxQ s.quaternion_ (composeQuat s.fixed_ s.axes_0 s.axes_1 s.axes_2 e0 e1 e2)) :
    (setEulerAnglesNoNorm s e0 e1 e2).1.quaternion_ = s.quaternion_ := by
  simp only [setEulerAnglesNoNorm, if_pos h]
  split <;> rfl

theorem noNorm_quat_far (s : EulerState) (e0 e1 e2 : ℝ)
    (h : ¬ isApproxQ s.quaternion_ (composeQuat s.fixed_ s.axes_0 s.axes_1 s.axes_2 e0 e1 e2)) :
    (setEulerAnglesNoNorm s e0 e1 e2).1.quaternion_ =
      composeQuat s.fixed_ s.axes_0 s.axes_1 s.axes_2 e0 e1 e2 := by
  simp only [setEulerAnglesNoNorm, if_neg h]

theorem noNorm_frame (s : EulerState) (e0 e1 e2 : ℝ) :
    (setEulerAnglesNoNorm s e0 e1 e2).1.axes_string_ = s.axes_string_ ∧
    (setEulerAnglesNoNorm s e0 e1 e2).1.fixed_ = s.fixed_ ∧
    (setEulerAnglesNoNorm s e0 e1 e2).1.axes_0 = s.axes_0 ∧
    (setEulerAnglesNoNorm s e0 e1 e2).1.axes_1 = s.axes_1 ∧
    (setEulerAnglesNoNorm s e0 e1 e2).1.axes_2 = s.axes_2 ∧
    (setEulerAnglesNoNorm s e0 e1 e2).1.ignore_child_updates_ =
      s.ignore_child_updates_ := by
  simp only [setEulerAnglesNoNorm]
  split <;> split <;> exact ⟨rfl, rfl, rfl, rfl, rfl, rfl⟩

theorem noNorm_children (s : EulerState) (e0 e1 e2 : ℝ)
    (hb : s.ignore_child_updates_ = false) :
    (setEulerAnglesNoNorm s e0 e1 e2).1.euler_0 = to_degrees e0 ∧
    (setEulerAnglesNoNorm s e0 e1 e2).1.euler_1 = to_degrees e1 ∧
    (setEulerAnglesNoNorm s e0 e1 e2).1.euler_2 = to_degrees e2 := by
  have hb' : ¬ (s.ignore_child_updates_ = true) := by simp [hb]
  simp only [setEulerAnglesNoNorm, if_neg hb']
  split <;> exact ⟨rfl, rfl, rfl⟩

theorem noNorm_near_eq (s : EulerState) (e0 e1 e2 : ℝ)
    (hb : s.ignore_child_updates_ = false)
    (h : isApproxQ s.quaternion_
      (composeQuat s.fixed_ s.axes_0 s.axes_1 s.axes_2 e0 e1 e2)) :
    setEulerAnglesNoNorm s e0 e1 e2 =
      ({ s with euler_0 := to_degrees e0, euler_1 := to_degrees e1,
                euler_2 := to_degrees e2 },
       [Ev.aboutToChange, Ev.changed]) := by
  have hb' : ¬ (s.ignore_child_updates_ = true) := by simp [hb]
  simp only [setEulerAnglesNoNorm, if_neg hb', if_pos h]

theorem noNorm_far_eq (s : EulerState) (e0 e1 e2 : ℝ)
    (hb : s.ignore_child_updates_ = false)
    (h : ¬ isApproxQ s.quaternion_
      (composeQuat s.fixed_ s.axes_0 s.axes_1 s.axes_2 e0 e1 e2)) :
    setEulerAnglesNoNorm s e0 e1 e2 =
      ({ s with quaternion_ := composeQuat s.fixed_ s.axes_0 s.axes_1 s.axes_2 e0 e1 e2,
                euler_0 := to_degrees e0, euler_1 := to_degrees e1,
                euler_2 := to_degrees e2 },
       [Ev.aboutToChange,
        Ev.quaternionChanged (composeQuat s.fixed_ s.axes_0 s.axes_1 s.axes_2 e0 e1 e2),
        Ev.changed]) := by
  have hb' : ¬ (s.ignore_child_updates_ = true) := by simp [hb]
  simp only [setEulerAnglesNoNorm, if_neg hb', if_neg h]

/-- parse3 only succeeds with in-range, consecutive-distinct indices and
the given frame flag. -/
theorem parse3_ok_sound (fixed : Bool) (l : List Char) (fx : Bool) (b0 b1 b2 : Nat)
    (h : parse3 fixed l = .ok (fx, (b0, b1, b2))) :
    fx = fixed ∧ b0 < 3 ∧ b1 < 3 ∧ b2 < 3 ∧ b0 ≠ b1 ∧ b1 ≠ b2 := by
  match l with
  | [] => simp [parse3] at h
  | [c0] => simp [parse3] at h
  | [c0, c1] => simp [parse3] at h
  | c0 :: c1 :: c2 :: c3 :: t => simp [parse3] at h
  | [c0, c1, c2] =>
    simp only [parse3] at h
    split_ifs at h with h0 h1 h2 h3 h4
    all_goals
      first
      | (simp at h
         done)
      | (obtain ⟨hfx, hb0, hb1, hb2⟩ : fixed = fx ∧ (axIdxI c0).toNat = b0 ∧
            (axIdxI c1).toNat = b1 ∧ (axIdxI c2).toNat = b2 := by
          have h' := h
          simp only [Except.ok.injEq, Prod.mk.injEq] at h'
          exact h'
         refine ⟨hfx.symm, ?_, ?_, ?_, ?_, ?_⟩ <;> omega)

/-- parseAxes only succeeds with in-range, consecutive-distinct indices. -/
theorem parseAxes_ok_sound (spec : List Char) (fx : Bool) (b0 b1 b2 : Nat)
    (h : parseAxes spec = .ok (fx, (b0, b1, b2))) :
    b0 < 3 ∧ b1 < 3 ∧ b2 < 3 ∧ b0 ≠ b1 ∧ b1 ≠ b2 := by
  unfold parseAxes at h
  split_ifs at h with hg
  all_goals
    first
    | (simp at h
       done)
    | (have h5 := parse3_ok_sound (frameOf spec) (axesRemainder spec) fx b0 b1 b2 h
       exact ⟨h5.2.1, h5.2.2.1, h5.2.2.2.1, h5.2.2.2.2.1, h5.2.2.2.2.2⟩)

theorem updateAnglesE_flag (s : EulerState) :
    (updateAnglesE s).1.ignore_child_updates_ = s.ignore_child_updates_ := by
  unfold updateAnglesE
  exact (noNorm_frame _ _ _ _).2.2.2.2.2

theorem setQuaternionE_flag (s : EulerState) (q : Quat) :
    (setQuaternionE s q).1.ignore_child_updates_ = s.ignore_child_updates_ := by
  unfold setQuaternionE
  split
  · rfl
  · exact updateAnglesE_flag _

theorem setEulerAnglesE_flag (s : EulerState) (e0 e1 e2 : ℝ) (n : Bool) :
    (setEulerAnglesE s e0 e1 e2 n).1.ignore_child_updates_ =
      s.ignore_child_updates_ := by
  unfold setEulerAnglesE
  split
  · exact setQuaternionE_flag _ _
  · exact (noNorm_frame _ _ _ _).2.2.2.2.2

theorem setEulerAxesE_flag (s : EulerState) (spec : List Char) :
    (setEulerAxesE s spec).1.ignore_child_updates_ = s.ignore_child_updates_ := by
  unfold setEulerAxesE
  split
  · rfl
  · split
    · rfl
    · exact updateAnglesE_flag _

theorem setValueE_flag (s : EulerState) (input : List Char) :
    (setValueE s input).1.ignore_child_updates_ = s.ignore_child_updates_ := by
  rcases hA : axesSpecIndexIn input with _ | ⟨ml, cap⟩
  · simp only [setValueE, hA]
    rcases splitSemi input with _ | ⟨t0, _ | ⟨t1, _ | ⟨t2, rest⟩⟩⟩
    · rfl
    · rfl
    · rfl
    · rcases hT0 : toDouble t0 with _ | v0 <;> rcases hT1 : toDouble t1 with _ | v1 <;>
        rcases hT2 : toDouble t2 with _ | v2 <;>
        simp only [hT0, hT1, hT2] <;>
        first
        | rfl
        | exact (noNorm_frame _ _ _ _).2.2.2.2.2
  · rcases hE : setEulerAxesE s cap with ⟨s1, evs1, err⟩
    have hE1 : s1.ignore_child_updates_ = s.ignore_child_updates_ := by
      have := setEulerAxesE_flag s cap
      rw [hE] at this
      exact this
    rcases err with _ | e
    · simp only [setValueE, hA, hE]
      rcases splitSemi (input.drop ml) with _ | ⟨t0, _ | ⟨t1, _ | ⟨t2, rest⟩⟩⟩
      · exact hE1
      · exact hE1
      · exact hE1
      · rcases hT0 : toDouble t0 with _ | v0 <;> rcases hT1 : toDouble t1 with _ | v1 <;>
          rcases hT2 : toDouble t2 with _ | v2 <;>
          simp only [hT0, hT1, hT2] <;>
          first
          | exact hE1
          | exact ((noNorm_frame _ _ _ _).2.2.2.2.2).trans hE1
    · simp only [setValueE, hA, hE]

theorem updateFromChildrenE_flag (s : EulerState)
    (h : s.ignore_child_updates_ = false) :
    (updateFromChildrenE s).1.ignore_child_updates_ = false := by
  unfold updateFromChildrenE
  split
  · exact h
  · rfl

theorem loadE_flag (s : EulerState) (c : Config) :
    (loadE s c).1.ignore_child_updates_ = s.ignore_child_updates_ := by
  unfold loadE
  rcases c.axes with _ | ax <;> rcases c.e1 with _ | v1 <;>
    rcases c.e2 with _ | v2 <;> rcases c.e3 with _ | v3 <;>
    try rfl
  rcases hE : setEulerAxesE s ax with ⟨s1, evs1, err⟩
  have hE1 : s1.ignore_child_updates_ = s.ignore_child_updates_ := by
    have := setEulerAxesE_flag s ax
    rw [hE] at this
    exact this
  rcases err with _ | e
  · simp only [hE]
    exact (setEulerAnglesE_flag _ _ _ _ _).trans hE1
  · simp only [hE]
    exact hE1

theorem setQuaternionR_flag (r : RotationState) (q : Quat)
    (h : r.ignore_child_updates_ = false)
    (he : r.euler.ignore_child_updates_ = false) :
    (setQuaternionR r q).1.ignore_child_updates_ = false ∧
    (setQuaternionR r q).1.euler.ignore_child_updates_ = false := by
  unfold setQuaternionR
  split
  · exact ⟨h, he⟩
  · exact ⟨rfl, (setQuaternionE_flag _ _).trans he⟩

/-! ### The claims -/

/-- C1: storing a unit quaternion, decomposing it into Euler angles
(updateAngles) and recomposing them under the same axis spec (both frame
conventions) reproduces the quaternion only up to sign: the result is
exactly q or -q.  The original claim of approximate equality to q itself
(within 1e-6) fails on the antipodal representatives. -/
theorem claim_C1 (q : Quat) (hq : qnormSq q = 1) (fixed : Bool) (a0 a1 a2 : Nat)
    (h0 : a0 < 3) (h1 : a1 < 3) (h2 : a2 < 3) (h01 : a0 ≠ a1) (h12 : a1 ≠ a2) :
    composeQuat fixed a0 a1 a2 (decomposeAngles q fixed a0 a1 a2).1
        (decomposeAngles q fixed a0 a1 a2).2.1
        (decomposeAngles q fixed a0 a1 a2).2.2 = q ∨
      composeQuat fixed a0 a1 a2 (decomposeAngles q fixed a0 a1 a2).1
        (decomposeAngles q fixed a0 a1 a2).2.1
        (decomposeAngles q fixed a0 a1 a2).2.2 = qneg q :=
  composeQuat_decomposeAngles q hq fixed a0 a1 a2 h0 h1 h2 h01 h12

theorem claim_C1_witness :
    qnormSq qone = 1 ∧
    (composeQuat true 0 1 2 (decomposeAngles qone true 0 1 2).1
        (decomposeAngles qone true 0 1 2).2.1
        (decomposeAngles qone true 0 1 2).2.2 = qone ∨
      composeQuat true 0 1 2 (decomposeAngles qone true 0 1 2).1
        (decomposeAngles qone true 0 1 2).2.1
        (decomposeAngles qone true 0 1 2).2.2 = qneg qone) :=
  ⟨by norm_num [qnormSq, qone],
   claim_C1 qone (by norm_num [qnormSq, qone]) true 0 1 2 (by norm_num)
     (by norm_num) (by norm_num) (by norm_num) (by norm_num)⟩

theorem claim_C1_cx :
    ¬ isApproxQTol (1 / 10 ^ 6)
      (composeQuat true 0 1 2 (decomposeAngles ⟨-1, 0, 0, 0⟩ true 0 1 2).1
        (decomposeAngles ⟨-1, 0, 0, 0⟩ true 0 1 2).2.1
        (decomposeAngles ⟨-1, 0, 0, 0⟩ true 0 1 2).2.2)
      ⟨-1, 0, 0, 0⟩ := by
  rw [decomposeAngles_negone_fixed]
  show ¬ isApproxQTol (1 / 10 ^ 6) (composeQuat true 0 1 2 0 0 0) ⟨-1, 0, 0, 0⟩
  rw [composeQuat_fixed_zero]
  norm_num [isApproxQTol, qnormSq, qone]

/-- C2: the quaternion composed by setEulerAngles realises, at the
rotation-matrix level, R(axis2,e2)*R(axis1,e1)*R(axis0,e0) in the fixed
frame and R(axis0,e0)*R(axis1,e1)*R(axis2,e2) in the rotating frame, where
R is the right-handed basis rotation. -/
theorem claim_C2 (fixed : Bool) (a0 a1 a2 : Nat) (h0 : a0 < 3) (h1 : a1 < 3)
    (h2 : a2 < 3) (e0 e1 e2 : ℝ) :
    quatToMatrix (composeQuat fixed a0 a1 a2 e0 e1 e2) =
      if fixed then
        mulM3 (mulM3 (basisRotMat a2 e2) (basisRotMat a1 e1)) (basisRotMat a0 e0)
      else
        mulM3 (mulM3 (basisRotMat a0 e0) (basisRotMat a1 e1)) (basisRotMat a2 e2) := by
  cases fixed
  · simp only [composeQuat, Bool.false_eq_true, if_false]
    exact quatToMatrix_triple a0 a1 a2 h0 h1 h2 e0 e1 e2
  · simp only [composeQuat, if_true]
    exact quatToMatrix_triple a2 a1 a0 h2 h1 h0 e2 e1 e0

theorem claim_C2_witness :
    (0 : Nat) < 3 ∧ (1 : Nat) < 3 ∧ (2 : Nat) < 3 ∧
    quatToMatrix (composeQuat true 0 1 2 0 0 0) =
      (if true then
        mulM3 (mulM3 (basisRotMat 2 0) (basisRotMat 1 0)) (basisRotMat 0 0)
      else
        mulM3 (mulM3 (basisRotMat 0 0) (basisRotMat 1 0)) (basisRotMat 2 0)) :=
  ⟨by norm_num, by norm_num, by norm_num,
   claim_C2 true 0 1 2 (by norm_num) (by norm_num) (by norm_num) 0 0 0⟩

/-- C3: every spec of the form [sr]?[xyz]{3} with distinct consecutive
letters parses successfully to the expected frame flag ('s' gives fixed)
and axis indices x=0, y=1, z=2. -/
theorem claim_C3 (p : List Char) (c0 c1 c2 : Char)
    (hp : p ∈ [([] : List Char), ['s'], ['r']])
    (h0 : c0 ∈ ['x', 'y', 'z']) (h1 : c1 ∈ ['x', 'y', 'z'])
    (h2 : c2 ∈ ['x', 'y', 'z']) (d01 : c0 ≠ c1) (d12 : c1 ≠ c2) :
    parseAxes (p ++ [c0, c1, c2]) =
      .ok (decide (p = ['s']),
        (c0.toNat - 120, c1.toNat - 120, c2.toNat - 120)) := by
  fin_cases hp <;> fin_cases h0 <;> fin_cases h1 <;> fin_cases h2 <;>
    first
    | exact absurd rfl d01
    | exact absurd rfl d12
    | rfl

theorem claim_C3_witness :
    (['s'] ∈ [([] : List Char), ['s'], ['r']]) ∧ 'x' ∈ ['x', 'y', 'z'] ∧
    'y' ∈ ['x', 'y', 'z'] ∧ 'z' ∈ ['x', 'y', 'z'] ∧ 'x' ≠ 'y' ∧ 'y' ≠ 'z' ∧
    parseAxes (['s'] ++ ['x', 'y', 'z']) =
      .ok (decide ((['s'] : List Char) = ['s']),
        ('x'.toNat - 120, 'y'.toNat - 120, 'z'.toNat - 120)) :=
  ⟨by decide, by decide, by decide, by decide, by decide, by decide,
   claim_C3 ['s'] 'x' 'y' 'z' (by decide) (by decide) (by decide) (by decide)
     (by decide) (by decide)⟩

/-- C4: when an axis position holds a character outside x,y,z and all
earlier positions passed their checks, the scan fails with invalid_axes
naming the FIRST axis character (the code throws invalid_axes(*pc) with pc
still at the first axis character), not the offending one. -/
theorem claim_C4 (fixed : Bool) (c0 c1 c2 : Char) :
    ((axIdxI c0 < 0 ∨ 2 < axIdxI c0) →
      parse3 fixed [c0, c1, c2] = .error (.invalidChar c0)) ∧
    (¬ (axIdxI c0 < 0 ∨ 2 < axIdxI c0) → (axIdxI c1 < 0 ∨ 2 < axIdxI c1) →
      parse3 fixed [c0, c1, c2] = .error (.invalidChar c0)) ∧
    (¬ (axIdxI c0 < 0 ∨ 2 < axIdxI c0) → ¬ (axIdxI c1 < 0 ∨ 2 < axIdxI c1) →
      axIdxI c1 ≠ axIdxI c0 → (axIdxI c2 < 0 ∨ 2 < axIdxI c2) →
      parse3 fixed [c0, c1, c2] = .error (.invalidChar c0)) := by
  refine ⟨fun h => ?_, fun h h' => ?_, fun h h' hne hv => ?_⟩
  · simp only [parse3, if_pos h]
  · simp only [parse3, if_neg h, if_pos h']
  · simp only [parse3, if_neg h, if_neg h', if_neg hne, if_pos hv]

theorem claim_C4_witness :
    ¬ (axIdxI 'x' < 0 ∨ 2 < axIdxI 'x') ∧ ¬ (axIdxI 'y' < 0 ∨ 2 < axIdxI 'y') ∧
    axIdxI 'y' ≠ axIdxI 'x' ∧ (axIdxI 'q' < 0 ∨ 2 < axIdxI 'q') ∧
    parse3 false ['x', 'y', 'q'] = .error (.invalidChar 'x') :=
  ⟨by decide, by decide, by decide, by decide,
   (claim_C4 false 'x' 'y' 'q').2.2 (by decide) (by decide) (by decide) (by decide)⟩

theorem claim_C4_cx :
    parseAxes ['x', 'y', 'q'] = .error (.invalidChar 'x') ∧
    AxErr.invalidChar 'x' ≠ AxErr.invalidChar 'q' :=
  ⟨rfl, by decide⟩

/-- A representative state: quaternion q stored under the fixed sxyz spec. -/
def sxyzState (q : Quat) : EulerState :=
  { quaternion_ := q, euler_0 := 0, euler_1 := 0, euler_2 := 0,
    axes_string_ := ['s', 'x', 'y', 'z'], fixed_ := true,
    axes_0 := 0, axes_1 := 1, axes_2 := 2, ignore_child_updates_ := false }

/-- The post-constructor state: identity rotation under the rpy alias. -/
def rpyState : EulerState :=
  { quaternion_ := qone, euler_0 := 0, euler_1 := 0, euler_2 := 0,
    axes_string_ := ['r', 'p', 'y'], fixed_ := true,
    axes_0 := 0, axes_1 := 1, axes_2 := 2, ignore_child_updates_ := false }

/-- A representative rotation-property state. -/
def baseRotState : RotationState :=
  { euler := sxyzState qone, quaternion_property_ := qone,
    ignore_child_updates_ := false, show_euler_string_ := true }

theorem noNorm_events_ne_nil (s : EulerState) (e0 e1 e2 : ℝ) :
    (setEulerAnglesNoNorm s e0 e1 e2).2 ≠ [] := by
  by_cases h : isApproxQ s.quaternion_
      (composeQuat s.fixed_ s.axes_0 s.axes_1 s.axes_2 e0 e1 e2)
  · rw [noNorm_events_approx _ _ _ _ h]
    simp
  · rw [noNorm_events_far _ _ _ _ h]
    simp

/-- C9: setQuaternion is a no-op (no state change, no signals) exactly
when the argument is approximately equal to the stored quaternion; in
particular a repeated call is only a no-op if the first call left the
stored value approximately equal to q, which the angle round-trip can
break by storing the antipode (see the counterexample). -/
theorem claim_C9 (s : EulerState) (r : RotationState) (q : Quat) :
    (isApproxQ s.quaternion_ q → setQuaternionE s q = (s, [])) ∧
    (¬ isApproxQ s.quaternion_ q → (setQuaternionE s q).2 ≠ []) ∧
    (isApproxQ r.euler.quaternion_ q → setQuaternionR r q = (r, [])) := by
  refine ⟨fun h => ?_, fun h => ?_, fun h => ?_⟩
  · simp only [setQuaternionE, if_pos h]
  · simp only [setQuaternionE, if_neg h, updateAnglesE]
    exact noNorm_events_ne_nil _ _ _ _
  · simp only [setQuaternionR, if_pos h]

theorem claim_C9_witness :
    isApproxQ (sxyzState qone).quaternion_ qone ∧
    setQuaternionE (sxyzState qone) qone = (sxyzState qone, []) :=
  ⟨isApproxQ_refl _, (claim_C9 (sxyzState qone) baseRotState qone).1 (isApproxQ_refl _)⟩

/-- First call of the C9 counterexample: setting the negative z half-turn
quaternion on the identity state stores its antipode. -/
theorem c9_first_call :
    setQuaternionE (sxyzState qone) ⟨0, 0, 0, -1⟩ =
      ({ quaternion_ := ⟨0, 0, 0, 1⟩, euler_0 := to_degrees 0,
         euler_1 := to_degrees 0, euler_2 := to_degrees Real.pi,
         axes_string_ := ['s', 'x', 'y', 'z'], fixed_ := true,
         axes_0 := 0, axes_1 := 1, axes_2 := 2, ignore_child_updates_ := false },
       [Ev.aboutToChange, Ev.quaternionChanged ⟨0, 0, 0, 1⟩, Ev.changed]) := by
  have hcomp : composeQuat true 0 1 2 0 0 Real.pi = ⟨0, 0, 0, 1⟩ :=
    composeQuat_fixed_zpi
  simp only [setQuaternionE, sxyzState]
  rw [if_neg not_approx_qone_zm1]
  simp only [updateAnglesE, decomposeAngles_zm1_fixed]
  rw [noNorm_far_eq _ 0 0 Real.pi rfl
    (by
      show ¬ isApproxQ (⟨0, 0, 0, -1⟩ : Quat) (composeQuat true 0 1 2 0 0 Real.pi)
      rw [hcomp]
      exact not_approx_zm1_z1)]
  simp only [hcomp]

theorem claim_C9_cx :
    (setQuaternionE (setQuaternionE (sxyzState qone) ⟨0, 0, 0, -1⟩).1
      ⟨0, 0, 0, -1⟩).2 ≠ [] := by
  rw [c9_first_call]
  simp only [setQuaternionE]
  rw [if_neg not_approx_z1_zm1]
  simp only [updateAnglesE]
  exact noNorm_events_ne_nil _ _ _ _

/-- C10: every public operation leaves the reentrancy-suppression flag
cleared when it was clear on entry, on every exit path including the
error returns. -/
theorem claim_C10 (s : EulerState) (r : RotationState) (q : Quat) (e0 e1 e2 : ℝ)
    (n : Bool) (spec input : List Char) (c : Config)
    (hs : s.ignore_child_updates_ = false) (hr : r.ignore_child_updates_ = false)
    (hre : r.euler.ignore_child_updates_ = false) :
    (setQuaternionE s q).1.ignore_child_updates_ = false ∧
    (setEulerAnglesE s e0 e1 e2 n).1.ignore_child_updates_ = false ∧
    (setEulerAxesE s spec).1.ignore_child_updates_ = false ∧
    (setValueE s input).1.ignore_child_updates_ = false ∧
    (updateFromChildrenE s).1.ignore_child_updates_ = false ∧
    (loadE s c).1.ignore_child_updates_ = false ∧
    (setQuaternionR r q).1.ignore_child_updates_ = false ∧
    (setQuaternionR r q).1.euler.ignore_child_updates_ = false :=
  ⟨(setQuaternionE_flag s q).trans hs,
   (setEulerAnglesE_flag s e0 e1 e2 n).trans hs,
   (setEulerAxesE_flag s spec).trans hs,
   (setValueE_flag s input).trans hs,
   updateFromChildrenE_flag s hs,
   (loadE_flag s c).trans hs,
   (setQuaternionR_flag r q hr hre).1,
   (setQuaternionR_flag r q hr hre).2⟩

theorem claim_C10_witness :
    (sxyzState qone).ignore_child_updates_ = false ∧
    (setQuaternionE (sxyzState qone) qone).1.ignore_child_updates_ = false ∧
    (setValueE (sxyzState qone) ['1', ';', '2', ';', '3']).1.ignore_child_updates_ =
      false ∧
    (setQuaternionR baseRotState qone).1.ignore_child_updates_ = false :=
  have h := claim_C10 (sxyzState qone) baseRotState qone 0 0 0 false
    ['s', 'x', 'y', 'z'] ['1', ';', '2', ';', '3']
    ⟨none, none, none, none⟩ rfl rfl rfl
  ⟨rfl, h.1, h.2.2.2.1, h.2.2.2.2.2.2.1⟩

theorem hasQC_noNorm (s : EulerState) (e0 e1 e2 : ℝ) :
    hasQuatChanged (setEulerAnglesNoNorm s e0 e1 e2).2 ↔
      ¬ isApproxQ s.quaternion_
        (composeQuat s.fixed_ s.axes_0 s.axes_1 s.axes_2 e0 e1 e2) := by
  by_cases h : isApproxQ s.quaternion_
      (composeQuat s.fixed_ s.axes_0 s.axes_1 s.axes_2 e0 e1 e2)
  · rw [noNorm_events_approx _ _ _ _ h]
    simp [hasQuatChanged, h]
  · rw [noNorm_events_far _ _ _ _ h]
    simp [hasQuatChanged, h]

/-- C5 (amended): the quaternion-changed notification is emitted exactly
when the comparison inside the final angle-update step fails, i.e. the
quaternion stored at that point (for setQuaternion this is already the new
argument) is not approximately equal to the quaternion recomposed from the
computed angles.  This is NOT equivalent to the stored value having changed
across the whole operation: setQuaternion can change the stored value
arbitrarily far without any quaternionChanged when the recomposition
reproduces the argument exactly (counterexample). -/
theorem claim_C5 (s : EulerState) (q : Quat) (e0 e1 e2 : ℝ) (spec : List Char) :
    (hasQuatChanged (setQuaternionE s q).2 ↔
      ¬ isApproxQ s.quaternion_ q ∧
      ¬ isApproxQ q
        (composeQuat s.fixed_ s.axes_0 s.axes_1 s.axes_2
          (decomposeAngles q s.fixed_ s.axes_0 s.axes_1 s.axes_2).1
          (decomposeAngles q s.fixed_ s.axes_0 s.axes_1 s.axes_2).2.1
          (decomposeAngles q s.fixed_ s.axes_0 s.axes_1 s.axes_2).2.2)) ∧
    (hasQuatChanged (setEulerAnglesE s e0 e1 e2 false).2 ↔
      ¬ isApproxQ s.quaternion_
        (composeQuat s.fixed_ s.axes_0 s.axes_1 s.axes_2 e0 e1 e2)) ∧
    (hasQuatChanged (setEulerAxesE s spec).2.1 ↔
      ∃ fx b0 b1 b2, parseAxes spec = .ok (fx, (b0, b1, b2)) ∧
        s.axes_string_ ≠ spec ∧
        ¬ isApproxQ s.quaternion_
          (composeQuat fx b0 b1 b2
            (decomposeAngles s.quaternion_ fx b0 b1 b2).1
            (decomposeAngles s.quaternion_ fx b0 b1 b2).2.1
            (decomposeAngles s.quaternion_ fx b0 b1 b2).2.2)) := by
  refine ⟨?_, ?_, ?_⟩
  · by_cases hap : isApproxQ s.quaternion_ q
    · simp [setQuaternionE, hap, hasQuatChanged]
    · simp only [setQuaternionE, if_neg hap, updateAnglesE]
      rw [hasQC_noNorm]
      simp [hap]
  · simp only [setEulerAnglesE, Bool.false_eq_true, if_false]
    exact hasQC_noNorm s e0 e1 e2
  · by_cases hs : s.axes_string_ = spec
    · simp [setEulerAxesE, hs, hasQuatChanged]
    · rcases hP : parseAxes spec with e | ⟨fx, b0, b1, b2⟩
      · simp [setEulerAxesE, hs, hP, hasQuatChanged]
      · simp only [setEulerAxesE, if_neg hs, hP]
        simp only [updateAnglesE]
        rw [hasQC_noNorm]
        constructor
        · intro h
          exact ⟨fx, b0, b1, b2, rfl, hs, h⟩
        · rintro ⟨fx2, c0, c1, c2, hP2, hs2, h2⟩
          simp only [Except.ok.injEq, Prod.mk.injEq] at hP2
          obtain ⟨ha, hb, hc, hd⟩ := hP2
          subst ha
          subst hb
          subst hc
          subst hd
          exact h2

/-- The C5 counterexample trace: setting the x-axis quarter turn on the
identity state stores it, with the recomposition reproducing it exactly,
so no quaternionChanged is emitted. -/
theorem c5_trace :
    setQuaternionE (sxyzState qone) ⟨Real.sqrt 2 / 2, Real.sqrt 2 / 2, 0, 0⟩ =
      ({ quaternion_ := ⟨Real.sqrt 2 / 2, Real.sqrt 2 / 2, 0, 0⟩,
         euler_0 := to_degrees (Real.pi / 2), euler_1 := to_degrees 0,
         euler_2 := to_degrees 0,
         axes_string_ := ['s', 'x', 'y', 'z'], fixed_ := true,
         axes_0 := 0, axes_1 := 1, axes_2 := 2, ignore_child_updates_ := false },
       [Ev.aboutToChange, Ev.changed]) := by
  have hcomp : composeQuat true 0 1 2 (Real.pi / 2) 0 0 =
      ⟨Real.sqrt 2 / 2, Real.sqrt 2 / 2, 0, 0⟩ := composeQuat_fixed_pi2
  simp only [setQuaternionE, sxyzState]
  rw [if_neg not_approx_qone_rx90]
  simp only [updateAnglesE, decomposeAngles_rx90_fixed]
  rw [noNorm_near_eq _ (Real.pi / 2) 0 0 rfl
    (by
      show isApproxQ (⟨Real.sqrt 2 / 2, Real.sqrt 2 / 2, 0, 0⟩ : Quat)
        (composeQuat true 0 1 2 (Real.pi / 2) 0 0)
      rw [hcomp]
      exact isApproxQ_refl _)]

theorem claim_C5_cx :
    ¬ hasQuatChanged
      (setQuaternionE (sxyzState qone) ⟨Real.sqrt 2 / 2, Real.sqrt 2 / 2, 0, 0⟩).2 ∧
    ¬ isApproxQ (sxyzState qone).quaternion_
      (setQuaternionE (sxyzState qone)
        ⟨Real.sqrt 2 / 2, Real.sqrt 2 / 2, 0, 0⟩).1.quaternion_ := by
  rw [c5_trace]
  constructor
  · simp [hasQuatChanged]
  · show ¬ isApproxQ qone ⟨Real.sqrt 2 / 2, Real.sqrt 2 / 2, 0, 0⟩
    exact not_approx_qone_rx90

set_option maxHeartbeats 1000000 in
/-- C7 (amended): setAxes is a no-op on an equal spec string; an invalid
spec leaves the whole state untouched and returns the parse error; a valid
new spec installs the parsed frame and axis order and recomputes the
child angles from the stored quaternion under the new convention, but the
stored quaternion itself is only preserved up to sign (its rotation matrix
is preserved exactly; the counterexample shows the sign can flip, with a
quaternionChanged emission). -/
theorem claim_C7 (s : EulerState) (spec : List Char) :
    (s.axes_string_ = spec → setEulerAxesE s spec = (s, [], none)) ∧
    (∀ err, s.axes_string_ ≠ spec → parseAxes spec = .error err →
      setEulerAxesE s spec = (s, [], some err)) ∧
    (∀ fx b0 b1 b2, s.axes_string_ ≠ spec → parseAxes spec = .ok (fx, (b0, b1, b2)) →
      qnormSq s.quaternion_ = 1 → s.ignore_child_updates_ = false →
      (setEulerAxesE s spec).2.2 = none ∧
      (setEulerAxesE s spec).1.axes_string_ = spec ∧
      (setEulerAxesE s spec).1.fixed_ = fx ∧
      (setEulerAxesE s spec).1.axes_0 = b0 ∧
      (setEulerAxesE s spec).1.axes_1 = b1 ∧
      (setEulerAxesE s spec).1.axes_2 = b2 ∧
      quatToMatrix (setEulerAxesE s spec).1.quaternion_ =
        quatToMatrix s.quaternion_ ∧
      (setEulerAxesE s spec).1.euler_0 =
        to_degrees (decomposeAngles s.quaternion_ fx b0 b1 b2).1 ∧
      (setEulerAxesE s spec).1.euler_1 =
        to_degrees (decomposeAngles s.quaternion_ fx b0 b1 b2).2.1 ∧
      (setEulerAxesE s spec).1.euler_2 =
        to_degrees (decomposeAngles s.quaternion_ fx b0 b1 b2).2.2) := by
  refine ⟨fun h => ?_, fun err hne hP => ?_, fun fx b0 b1 b2 hne hP hq hb => ?_⟩
  · simp only [setEulerAxesE, if_pos h]
  · simp only [setEulerAxesE, if_neg hne, hP]
  · have hv := parseAxes_ok_sound spec fx b0 b1 b2 hP
    have hE : setEulerAxesE s spec =
        ((updateAnglesE (EulerState.mk s.quaternion_ s.euler_0 s.euler_1 s.euler_2
            spec fx b0 b1 b2 s.ignore_child_updates_)).1,
         (updateAnglesE (EulerState.mk s.quaternion_ s.euler_0 s.euler_1 s.euler_2
            spec fx b0 b1 b2 s.ignore_child_updates_)).2, none) := by
      simp only [setEulerAxesE, if_neg hne, hP]
    rw [hE]
    simp only [updateAnglesE]
    refine ⟨?_, ?_, ?_, ?_, ?_, ?_, ?_, ?_, ?_, ?_⟩
    · trivial
    · exact (noNorm_frame (EulerState.mk s.quaternion_ s.euler_0 s.euler_1 s.euler_2 spec fx b0 b1 b2 s.ignore_child_updates_) _ _ _).1
    · exact (noNorm_frame (EulerState.mk s.quaternion_ s.euler_0 s.euler_1 s.euler_2 spec fx b0 b1 b2 s.ignore_child_updates_) _ _ _).2.1
    · exact (noNorm_frame (EulerState.mk s.quaternion_ s.euler_0 s.euler_1 s.euler_2 spec fx b0 b1 b2 s.ignore_child_updates_) _ _ _).2.2.1
    · exact (noNorm_frame (EulerState.mk s.quaternion_ s.euler_0 s.euler_1 s.euler_2 spec fx b0 b1 b2 s.ignore_child_updates_) _ _ _).2.2.2.1
    · exact (noNorm_frame (EulerState.mk s.quaternion_ s.euler_0 s.euler_1 s.euler_2 spec fx b0 b1 b2 s.ignore_child_updates_) _ _ _).2.2.2.2.1
    · by_cases happ : isApproxQ s.quaternion_
          (composeQuat fx b0 b1 b2
            (decomposeAngles s.quaternion_ fx b0 b1 b2).1
            (decomposeAngles s.quaternion_ fx b0 b1 b2).2.1
            (decomposeAngles s.quaternion_ fx b0 b1 b2).2.2)
      · rw [noNorm_quat_approx (EulerState.mk s.quaternion_ s.euler_0 s.euler_1 s.euler_2 spec fx b0 b1 b2 s.ignore_child_updates_) _ _ _ happ]
      · rw [noNorm_quat_far (EulerState.mk s.quaternion_ s.euler_0 s.euler_1 s.euler_2 spec fx b0 b1 b2 s.ignore_child_updates_) _ _ _ happ]
        exact quatToMatrix_composeQuat_decomposeAngles s.quaternion_ hq fx b0 b1 b2
          hv.1 hv.2.1 hv.2.2.1 hv.2.2.2.1 hv.2.2.2.2
    · exact (noNorm_children (EulerState.mk s.quaternion_ s.euler_0 s.euler_1 s.euler_2 spec fx b0 b1 b2 s.ignore_child_updates_) _ _ _ hb).1
    · exact (noNorm_children (EulerState.mk s.quaternion_ s.euler_0 s.euler_1 s.euler_2 spec fx b0 b1 b2 s.ignore_child_updates_) _ _ _ hb).2.1
    · exact (noNorm_children (EulerState.mk s.quaternion_ s.euler_0 s.euler_1 s.euler_2 spec fx b0 b1 b2 s.ignore_child_updates_) _ _ _ hb).2.2

/-- The C7 counterexample trace: switching from sxyz to rxyz on the state
holding the positive z half-turn flips the stored quaternion to its
antipode. -/
theorem c7_trace :
    setEulerAxesE (sxyzState ⟨0, 0, 0, 1⟩) ['r', 'x', 'y', 'z'] =
      ({ quaternion_ := ⟨0, 0, 0, -1⟩, euler_0 := to_degrees 0,
         euler_1 := to_degrees 0, euler_2 := to_degrees (-Real.pi),
         axes_string_ := ['r', 'x', 'y', 'z'], fixed_ := false,
         axes_0 := 0, axes_1 := 1, axes_2 := 2, ignore_child_updates_ := false },
       [Ev.aboutToChange, Ev.quaternionChanged ⟨0, 0, 0, -1⟩, Ev.changed],
       none) := by
  have hcomp : composeQuat false 0 1 2 0 0 (-Real.pi) = ⟨0, 0, 0, -1⟩ :=
    composeQuat_rot_negpi
  simp only [setEulerAxesE, sxyzState]
  rw [if_neg (by decide : ¬ (['s', 'x', 'y', 'z'] = ['r', 'x', 'y', 'z']))]
  rw [show parseAxes ['r', 'x', 'y', 'z'] = .ok (false, (0, 1, 2)) from rfl]
  simp only [updateAnglesE, decomposeAngles_z1_rot]
  rw [noNorm_far_eq _ 0 0 (-Real.pi) rfl
    (by
      show ¬ isApproxQ (⟨0, 0, 0, 1⟩ : Quat) (composeQuat false 0 1 2 0 0 (-Real.pi))
      rw [hcomp]
      exact not_approx_z1_zm1)]
  simp only [hcomp]

theorem claim_C7_cx :
    (setEulerAxesE (sxyzState ⟨0, 0, 0, 1⟩) ['r', 'x', 'y', 'z']).2.2 = none ∧
    ¬ isApproxQ
      (setEulerAxesE (sxyzState ⟨0, 0, 0, 1⟩) ['r', 'x', 'y', 'z']).1.quaternion_
      (sxyzState ⟨0, 0, 0, 1⟩).quaternion_ := by
  rw [c7_trace]
  exact ⟨rfl, not_approx_zm1_z1⟩

/-- C8 (amended): load leaves the state untouched and raises no error when
any of the four keys is missing; but when all four keys are present and the
axes value is a (new) invalid spec, the parse error propagates out of load
uncaught, with the state unchanged; when the axes value is accepted, the
axes are applied first and then the three angles in one combined update. -/
theorem claim_C8 (s : EulerState) (c : Config) :
    ((c.axes = none ∨ c.e1 = none ∨ c.e2 = none ∨ c.e3 = none) →
      loadE s c = (s, [], none)) ∧
    (∀ ax v1 v2 v3 err, c = ⟨some ax, some v1, some v2, some v3⟩ →
      s.axes_string_ ≠ ax → parseAxes ax = .error err →
      loadE s c = (s, [], some err)) ∧
    (∀ ax v1 v2 v3, c = ⟨some ax, some v1, some v2, some v3⟩ →
      (setEulerAxesE s ax).2.2 = none →
      loadE s c =
        ((setEulerAnglesE (setEulerAxesE s ax).1 (from_degrees v1) (from_degrees v2)
            (from_degrees v3) true).1,
         (setEulerAxesE s ax).2.1 ++
           (setEulerAnglesE (setEulerAxesE s ax).1 (from_degrees v1) (from_degrees v2)
             (from_degrees v3) true).2,
         none)) := by
  refine ⟨fun h => ?_, fun ax v1 v2 v3 err hc hne hP => ?_,
    fun ax v1 v2 v3 hc hok => ?_⟩
  · obtain ⟨oax, oe1, oe2, oe3⟩ := c
    rcases oax with _ | ax <;> rcases oe1 with _ | v1 <;> rcases oe2 with _ | v2 <;>
      rcases oe3 with _ | v3 <;>
      first
      | rfl
      | (exfalso
         rcases h with h | h | h | h <;> simp at h)
  · subst hc
    have hE : setEulerAxesE s ax = (s, [], some err) := by
      simp only [setEulerAxesE, if_neg hne, hP]
    simp only [loadE, hE]
  · subst hc
    rcases hE : setEulerAxesE s ax with ⟨s1, evs1, err2⟩
    rcases err2 with _ | e
    · simp only [loadE, hE]
    · rw [hE] at hok
      simp at hok

theorem claim_C8_cx :
    loadE rpyState ⟨some ['x', 'x', 'z'], some 0, some 0, some 0⟩ =
      (rpyState, [], some AxErr.consecutive) := by
  have hE : setEulerAxesE rpyState ['x', 'x', 'z'] =
      (rpyState, [], some AxErr.consecutive) := by
    simp only [setEulerAxesE]
    rw [if_neg (by decide : ¬ (rpyState.axes_string_ = ['x', 'x', 'z']))]
    rw [show parseAxes ['x', 'x', 'z'] = .error .consecutive from rfl]
  simp only [loadE, hE]

/-- C6 (amended): full case analysis of the free-text edit.  With no
axis-spec token in the string, a malformed edit (fewer than three
semicolon-separated values, or a non-numeric value among the first three)
is rejected with the state untouched, and an edit with three or more
values whose first three are numeric is accepted (extra values are
ignored; the accepted path reaches the end of the non-void function
without a return statement, so its C++ return value is unspecified).
With an axis-spec token: an invalid token is rejected with the state
untouched; a valid token is applied first and the remainder follows the
same rules, so acceptance performs the axes change and then the angle
update, while a malformed remainder is rejected only AFTER the axes
change has taken effect, leaving the prior state changed
(counterexample). -/
theorem claim_C6 (s : EulerState) (input : List Char) :
    (axesSpecIndexIn input = none → (splitSemi input).length < 3 →
      setValueE s input = (s, [], some false)) ∧
    (∀ ml cap, axesSpecIndexIn input = some (ml, cap) →
      (setEulerAxesE s cap).2.2 ≠ none →
      setValueE s input = (s, [], some false)) ∧
    (∀ t0 t1 t2 rest v0 v1 v2, axesSpecIndexIn input = none →
      splitSemi input = t0 :: t1 :: t2 :: rest →
      toDouble t0 = some v0 → toDouble t1 = some v1 → toDouble t2 = some v2 →
      setValueE s input =
        ((setEulerAnglesNoNorm s (from_degrees (v0 : ℝ)) (from_degrees (v1 : ℝ))
            (from_degrees (v2 : ℝ))).1,
         (setEulerAnglesNoNorm s (from_degrees (v0 : ℝ)) (from_degrees (v1 : ℝ))
            (from_degrees (v2 : ℝ))).2,
         none)) ∧
    (∀ t0 t1 t2 rest, axesSpecIndexIn input = none →
      splitSemi input = t0 :: t1 :: t2 :: rest →
      (toDouble t0 = none ∨ toDouble t1 = none ∨ toDouble t2 = none) →
      setValueE s input = (s, [], some false)) ∧
    (∀ ml cap, axesSpecIndexIn input = some (ml, cap) →
      (setEulerAxesE s cap).2.2 = none →
      (splitSemi (input.drop ml)).length < 3 →
      setValueE s input =
        ((setEulerAxesE s cap).1, (setEulerAxesE s cap).2.1, some false)) ∧
    (∀ ml cap t0 t1 t2 rest v0 v1 v2, axesSpecIndexIn input = some (ml, cap) →
      (setEulerAxesE s cap).2.2 = none →
      splitSemi (input.drop ml) = t0 :: t1 :: t2 :: rest →
      toDouble t0 = some v0 → toDouble t1 = some v1 → toDouble t2 = some v2 →
      setValueE s input =
        ((setEulerAnglesNoNorm (setEulerAxesE s cap).1 (from_degrees (v0 : ℝ))
            (from_degrees (v1 : ℝ)) (from_degrees (v2 : ℝ))).1,
         (setEulerAxesE s cap).2.1 ++
           (setEulerAnglesNoNorm (setEulerAxesE s cap).1 (from_degrees (v0 : ℝ))
             (from_degrees (v1 : ℝ)) (from_degrees (v2 : ℝ))).2,
         none)) ∧
    (∀ ml cap t0 t1 t2 rest, axesSpecIndexIn input = some (ml, cap) →
      (setEulerAxesE s cap).2.2 = none →
      splitSemi (input.drop ml) = t0 :: t1 :: t2 :: rest →
      (toDouble t0 = none ∨ toDouble t1 = none ∨ toDouble t2 = none) →
      setValueE s input =
        ((setEulerAxesE s cap).1, (setEulerAxesE s cap).2.1, some false)) := by
  refine ⟨fun hA hlen => ?_, fun ml cap hA hne => ?_,
    fun t0 t1 t2 rest v0 v1 v2 hA hS h0 h1 h2 => ?_,
    fun t0 t1 t2 rest hA hS hbad => ?_,
    fun ml cap hA hok hlen => ?_,
    fun ml cap t0 t1 t2 rest v0 v1 v2 hA hok hS h0 h1 h2 => ?_,
    fun ml cap t0 t1 t2 rest hA hok hS hbad => ?_⟩
  · simp only [setValueE, hA]
    rcases hSS : splitSemi input with _ | ⟨t0, _ | ⟨t1, _ | ⟨t2, rest⟩⟩⟩ <;>
      simp only [hSS] <;>
      first
      | rfl
      | (exfalso
         rw [hSS] at hlen
         simp at hlen
         omega)
  · rcases hE : setEulerAxesE s cap with ⟨s1, evs1, err⟩
    rcases err with _ | e
    · rw [hE] at hne
      simp at hne
    · simp only [setValueE, hA, hE]
  · simp only [setValueE, hA, hS, h0, h1, h2, List.nil_append]
  · simp only [setValueE, hA, hS]
    rcases hT0 : toDouble t0 with _ | v0 <;> rcases hT1 : toDouble t1 with _ | v1 <;>
      rcases hT2 : toDouble t2 with _ | v2 <;>
      simp only [hT0, hT1, hT2] <;>
      first
      | rfl
      | (exfalso
         rcases hbad with hb | hb | hb <;> simp [hT0, hT1, hT2] at hb)
  · rcases hE : setEulerAxesE s cap with ⟨s1, evs1, err2⟩
    have herr : err2 = none := by
      rw [hE] at hok
      exact hok
    subst herr
    simp only [setValueE, hA, hE]
    rcases hSS : splitSemi (input.drop ml) with _ | ⟨t0, _ | ⟨t1, _ | ⟨t2, rest⟩⟩⟩ <;>
      simp only [hSS] <;>
      first
      | rfl
      | (exfalso
         rw [hSS] at hlen
         simp at hlen
         omega)
  · rcases hE : setEulerAxesE s cap with ⟨s1, evs1, err2⟩
    have herr : err2 = none := by
      rw [hE] at hok
      exact hok
    subst herr
    simp only [setValueE, hA, hE, hS, h0, h1, h2]
  · rcases hE : setEulerAxesE s cap with ⟨s1, evs1, err2⟩
    have herr : err2 = none := by
      rw [hE] at hok
      exact hok
    subst herr
    simp only [setValueE, hA, hE, hS]
    rcases hT0 : toDouble t0 with _ | v0 <;> rcases hT1 : toDouble t1 with _ | v1 <;>
      rcases hT2 : toDouble t2 with _ | v2 <;>
      simp only [hT0, hT1, hT2] <;>
      first
      | rfl
      | (exfalso
         rcases hbad with hb | hb | hb <;> simp [hT0, hT1, hT2] at hb)

/-- The C6 counterexample's axes stage: the valid token zyx is applied to
the post-constructor state. -/
theorem c6_axes_trace :
    setEulerAxesE rpyState ['z', 'y', 'x'] =
      ({ quaternion_ := qone, euler_0 := to_degrees 0, euler_1 := to_degrees 0,
         euler_2 := to_degrees 0, axes_string_ := ['z', 'y', 'x'], fixed_ := false,
         axes_0 := 2, axes_1 := 1, axes_2 := 0, ignore_child_updates_ := false },
       [Ev.aboutToChange, Ev.changed], none) := by
  have hcomp : composeQuat false 2 1 0 0 0 0 = qone := composeQuat_rot_zero
  simp only [setEulerAxesE, rpyState]
  rw [if_neg (by decide : ¬ ((['r', 'p', 'y'] : List Char) = ['z', 'y', 'x']))]
  rw [show parseAxes ['z', 'y', 'x'] = .ok (false, (2, 1, 0)) from rfl]
  simp only [updateAnglesE, decomposeAngles_qone_rot210]
  rw [noNorm_near_eq (EulerState.mk qone 0 0 0 ['z', 'y', 'x'] false 2 1 0 false)
    0 0 0 rfl
    (by
      show isApproxQ qone (composeQuat false 2 1 0 0 0 0)
      rw [hcomp]
      exact isApproxQ_refl _)]

theorem c6_trace :
    setValueE rpyState ['z', 'y', 'x', ':', ' ', '1', ';', '2'] =
      ({ quaternion_ := qone, euler_0 := to_degrees 0, euler_1 := to_degrees 0,
         euler_2 := to_degrees 0, axes_string_ := ['z', 'y', 'x'], fixed_ := false,
         axes_0 := 2, axes_1 := 1, axes_2 := 0, ignore_child_updates_ := false },
       [Ev.aboutToChange, Ev.changed], some false) := by
  have h1 : axesSpecIndexIn ['z', 'y', 'x', ':', ' ', '1', ';', '2'] =
      some (4, ['z', 'y', 'x']) := rfl
  simp only [setValueE, h1, c6_axes_trace]
  rfl

theorem claim_C6_cx :
    (setValueE rpyState ['z', 'y', 'x', ':', ' ', '1', ';', '2']).2.2 = some false ∧
    (setValueE rpyState ['z', 'y', 'x', ':', ' ', '1', ';', '2']).1.axes_string_ ≠
      rpyState.axes_string_ := by
  rw [c6_trace]
  exact ⟨rfl, by decide⟩
